import Mathlib

/-!
# OptixGridRenderer (testshade): diagnostic decoder, string table, texture cache

A shallow embedding of `src/testshade/optixgridrender.cpp`, OptiX 7 code path
(`OSL_USE_OPTIX` defined, `OPTIX_VERSION >= 70000`).

* `processPrintfBuffer` decodes the device printf buffer.
* `get_texture_handle` / `good` are the texture handle cache.
* `make_optix_materials` / `finalize_scene` build the pipeline and the two shader
  binding tables; `render`, `finalize_pixel_buffer`, `clear` and the destructor use
  them.

Conventions of the embedding.

* Host memory is a total map from byte offsets (counted from `buffer_data`) to
  bytes; every load the decoder performs is logged as `(offset, width)` so that
  statements about which bytes are read can be made.
* `uint64_t` / `size_t` values that come from the buffer are reduced modulo
  `2 ^ 64` where the source computes with them.
* The OptiX and CUDA calls wrapped in `OPTIX_CHECK`, `CUDA_CHECK` or
  `CUDA_SYNC_CHECK` are logged in order; whether one succeeds is a parameter, and a
  failed one ends the member function in `exit(1)`. Library handles are represented
  by what they are created from.
* Behaviour that C++ leaves undefined (reading a format string past its
  terminating NUL, writing past the 4096 byte line buffer, a conversion
  specification `snprintf` does not define) stops the decoder with a `Fault`.
-/

namespace OptixGridRenderer

/-! ## Memory -/

/-- Host memory addressed by byte offset from `buffer_data`. -/
abbrev Memory := Nat → Nat

/-- The byte stored at offset `a`. -/
def byteAt (mem : Memory) (a : Nat) : Nat := mem a % 256

/-- Little-endian load of `n` bytes starting at offset `a` (the host is little-endian). -/
def loadLE (mem : Memory) (a : Nat) : Nat → Nat
  | 0 => 0
  | n + 1 => byteAt mem a + 256 * loadLE mem (a + 1) n

/-- Load of a `uint64_t`: `*reinterpret_cast<const uint64_t *>(&ptr[src])`. -/
def readU64 (mem : Memory) (a : Nat) : Nat := loadLE mem a 8

/-- Load of an `int`: `*reinterpret_cast<const int *>(&ptr[src])`, two's complement. -/
def readInt (mem : Memory) (a : Nat) : Int :=
  if loadLE mem a 4 < 2 ^ 31 then (loadLE mem a 4 : Int) else (loadLE mem a 4 : Int) - 2 ^ 32

/-- Memory whose first bytes are the given list and which is zero elsewhere. -/
def ofBytes (bytes : List Nat) : Memory := fun a => bytes.getD a 0

/-- The `n` little-endian bytes of `v`. -/
def bytesLE (v : Nat) : Nat → List Nat
  | 0 => []
  | n + 1 => v % 256 :: bytesLE (v / 256) n

/-! ## The string table and the C library -/

/-- The table `m_hash_map`: hash to registered C string (its text before the NUL);
`none` stands for an absent entry, which `operator[]` yields as `nullptr`. -/
abbrev HashMap := Nat → Option (List Char)

/-- The calls `processPrintfBuffer` makes to the C library's `snprintf`, which is
not part of the repository: each field maps the conversion specification collected
in `fmt_string` and the argument to the text `snprintf` produces, `none` where the
behaviour is undefined. -/
structure Libc where
  /-- Result of `snprintf(.., fmt)` for the `%` case, no argument. -/
  snprintfNone : List Char → Option (List Char)
  /-- Result of `snprintf(.., fmt, int)`. -/
  snprintfInt : List Char → Int → Option (List Char)
  /-- Result of `snprintf(.., fmt, double)`, the double given by its 64 bits. -/
  snprintfDouble : List Char → Nat → Option (List Char)
  /-- Result of `snprintf(.., fmt, const char*)`. -/
  snprintfStr : List Char → List Char → Option (List Char)

/-! ## processPrintfBuffer -/

/-- Ways the decoder stops other than by leaving its loop. -/
inductive Fault where
  /-- `OSL_ASSERT(format != nullptr ...)` or `OSL_ASSERT(str != nullptr ...)` failed. -/
  | unknownHash (hash : Nat)
  /-- The conversion scan read `format[j]` past the terminating NUL. -/
  | formatOverrun
  /-- A write to `buffer` at an index outside `char buffer[BufferSize]`. -/
  | lineOverflow
  /-- The call to `snprintf` has no defined result for `fmt_string`. -/
  | undefinedConversion (fmt_string : List Char)
  deriving DecidableEq, Repr

/-- Modelled from the spec: the macro `OSL_ASSERT` is declared outside `src/`; the spec
(4.1, 4.6, 7) makes an unresolved hash a fatal assertion `UnknownHash`. This is the
lookup `m_hash_map[hash]` followed by `OSL_ASSERT(.. != nullptr && ..)`. -/
def resolve (tbl : HashMap) (hash : Nat) : Except Fault (List Char) :=
  match tbl hash with
  | none => .error (.unknownHash hash)
  | some text => .ok text

/-- The constant `BufferSize`: maximal size of each output string. -/
def BufferSize : Nat := 4096

/-- The locals of one iteration of the record loop, with the log of loads. -/
structure Locals where
  /-- Offset of the next argument byte, counted from the record start `ptr`. -/
  src : Nat
  /-- Index of the next character of `buffer`. -/
  dst : Nat
  /-- The characters stored in `buffer[0 .. dst)`. -/
  buffer : List Char
  /-- Loads from host memory, as `(offset from buffer_data, width)`, oldest first. -/
  reads : List (Nat × Nat)
  deriving DecidableEq, Repr

/-- The statement `buffer[dst++] = c`. -/
def putChar (st : Locals) (c : Char) : Except Fault Locals :=
  if st.dst < BufferSize then
    .ok { st with buffer := st.buffer ++ [c], dst := st.dst + 1 }
  else .error .lineOverflow

/-- The statement `dst += snprintf(&buffer[dst], BufferSize - dst, fmt_string.c_str(), ..)`,
where `out` is what `snprintf` produces for the call. At most `BufferSize - dst - 1`
characters are stored and the full length is added to `dst`; for `dst > BufferSize`
the size argument wraps around and the store leaves the buffer. -/
def putFormatted (st : Locals) (fmt_string : List Char) (out : Option (List Char)) :
    Except Fault Locals :=
  match out with
  | none => .error (.undefinedConversion fmt_string)
  | some text =>
    if BufferSize < st.dst then .error .lineOverflow
    else .ok { st with buffer := st.buffer ++ text.take (BufferSize - st.dst - 1),
                       dst := st.dst + text.length }

/-- The alignment `(src + sizeof(double) - 1) & ~(sizeof(double)-1)`. -/
def alignDouble (src : Nat) : Nat := (src + 7) / 8 * 8

/-- The loop `for (size_t j = 0; j < len; j++)` over the format string of a record
that starts at offset `ptr`. The first list is `format[j ..]`; the second argument
is `none` between conversions and `some fmt_string` inside the conversion scan
(the loop `for (size_t i = 0; !format_end_found; i++)`). -/
def formatLoop (L : Libc) (tbl : HashMap) (mem : Memory) (ptr : Nat) :
    List Char → Option (List Char) → Locals → Except Fault Locals
  | [], none, st => .ok st
  | [], some _, _ => .error .formatOverrun
  | c :: rest, none, st =>
    if c = '%' then formatLoop L tbl mem ptr rest (some ['%']) st
    else
      match putChar st c with
      | .error f => .error f
      | .ok st1 => formatLoop L tbl mem ptr rest none st1
  | c :: rest, some fs, st =>
    if c = '%' then
      match putFormatted st (fs ++ [c]) (L.snprintfNone (fs ++ [c])) with
      | .error f => .error f
      | .ok st1 => formatLoop L tbl mem ptr rest none st1
    else if c = 'd' ∨ c = 'i' ∨ c = 'o' ∨ c = 'x' then
      match putFormatted { st with reads := st.reads ++ [(ptr + st.src, 4)] } (fs ++ [c])
          (L.snprintfInt (fs ++ [c]) (readInt mem (ptr + st.src))) with
      | .error f => .error f
      | .ok st1 => formatLoop L tbl mem ptr rest none { st1 with src := st1.src + 4 }
    else if c = 'f' ∨ c = 'g' ∨ c = 'e' then
      match putFormatted
          { st with src := alignDouble st.src,
                    reads := st.reads ++ [(ptr + alignDouble st.src, 8)] } (fs ++ [c])
          (L.snprintfDouble (fs ++ [c]) (readU64 mem (ptr + alignDouble st.src))) with
      | .error f => .error f
      | .ok st1 => formatLoop L tbl mem ptr rest none { st1 with src := st1.src + 8 }
    else if c = 's' then
      match resolve tbl (readU64 mem (ptr + alignDouble st.src)) with
      | .error f => .error f
      | .ok str =>
        match putFormatted
            { st with src := alignDouble st.src,
                      reads := st.reads ++ [(ptr + alignDouble st.src, 8)] } (fs ++ [c])
            (L.snprintfStr (fs ++ [c]) str) with
        | .error f => .error f
        | .ok st1 => formatLoop L tbl mem ptr rest none { st1 with src := st1.src + 8 }
    else formatLoop L tbl mem ptr rest (some (fs ++ [c])) st

/-- How the record loop of `processPrintfBuffer` ended. -/
inductive Exit where
  /-- The statement `break` on `fmt_str_hash == 0`. -/
  | sentinel
  /-- The loop condition `total_read < buffer_size` was false. -/
  | sizeReached
  /-- The decoder stopped with a fault. -/
  | fault (f : Fault)
  /-- The embedding ran out of iterations; the source loop is still running. -/
  | outOfFuel
  deriving DecidableEq, Repr

/-- The state of the record loop together with what it has done so far. -/
structure Decoder where
  /-- The pointer `ptr`, as an offset from `buffer_data`. -/
  ptr : Nat
  /-- The counter `total_read`. -/
  total_read : Nat
  /-- The strings handed to `printf("%s", buffer)`, oldest first. -/
  lines : List (List Char)
  /-- Loads from host memory, as `(offset from buffer_data, width)`, oldest first. -/
  reads : List (Nat × Nat)
  deriving DecidableEq, Repr

/-- State on entry of `processPrintfBuffer`. -/
def Decoder.start : Decoder := { ptr := 0, total_read := 0, lines := [], reads := [] }

/-- The value `next_args = src + args_size` of a record with the given `args_size`
field (`src` is 16 at that point), in `uint64_t` arithmetic. -/
def nextArgs (args_size : Nat) : Nat := (16 + args_size) % 2 ^ 64

/-- The format loop of the record at `ptr` run from fresh locals (`src` past the
two header fields, `dst = 0`). -/
def formatRecord (L : Libc) (tbl : HashMap) (mem : Memory) (ptr : Nat) (format : List Char) :
    Except Fault Locals :=
  formatLoop L tbl mem ptr format none { src := 16, dst := 0, buffer := [], reads := [] }

/-- The body of the record loop for the record at `d.ptr`. The second component is
`none` when the loop goes on to its next test and the reason for leaving otherwise. -/
def decodeRecord (L : Libc) (tbl : HashMap) (mem : Memory) (d : Decoder) :
    Decoder × Option Exit :=
  let fmt_str_hash := readU64 mem d.ptr
  let args_size := readU64 mem (d.ptr + 8)
  let next_args := nextArgs args_size
  let d1 := { d with reads := d.reads ++ [(d.ptr, 8), (d.ptr + 8, 8)] }
  if fmt_str_hash = 0 then (d1, some .sentinel)
  else
    match resolve tbl fmt_str_hash with
    | .error f => (d1, some (.fault f))
    | .ok format =>
      match formatRecord L tbl mem d.ptr format with
      | .error f => (d1, some (.fault f))
      | .ok st =>
        let d2 := { d1 with ptr := d.ptr + next_args,
                            total_read := (d.total_read + next_args) % 2 ^ 64,
                            reads := d1.reads ++ st.reads }
        if st.dst < BufferSize then ({ d2 with lines := d2.lines ++ [st.buffer] }, none)
        else (d2, some (.fault .lineOverflow))

/-- The record loop `while (total_read < buffer_size)` of `processPrintfBuffer`,
for at most `fuel` iterations. -/
def processLoop (L : Libc) (tbl : HashMap) (mem : Memory) (buffer_size : Nat) :
    Nat → Decoder → Decoder × Exit
  | 0, d => (d, .outOfFuel)
  | fuel + 1, d =>
    if d.total_read < buffer_size then
      match decodeRecord L tbl mem d with
      | (d1, some e) => (d1, e)
      | (d1, none) => processLoop L tbl mem buffer_size fuel d1
    else (d, .sizeReached)

/-- The function `OptixGridRenderer::processPrintfBuffer(buffer_data, buffer_size)`
run for at most `fuel` records. -/
def processPrintfBuffer (L : Libc) (tbl : HashMap) (mem : Memory) (buffer_size : Nat)
    (fuel : Nat) : Decoder × Exit :=
  processLoop L tbl mem buffer_size fuel Decoder.start

/-! ## The C library's conversions without flags, width or precision -/

/-- Signed decimal text of an `int`, as `%d` and `%i` print it. -/
def decimalText (v : Int) : List Char :=
  if v < 0 then '-' :: Nat.toDigits 10 v.natAbs else Nat.toDigits 10 v.toNat

/-- The `unsigned int` that `%o` and `%x` see when handed the `int` `v`. -/
def asUnsigned (v : Int) : Nat := (v % 2 ^ 32).toNat

/-- Quotient `num / den` rounded to the nearest integer, ties to even. -/
def roundHalfEven (num den : Nat) : Nat :=
  if den < 2 * (num % den) ∨ (2 * (num % den) = den ∧ num / den % 2 = 1) then num / den + 1
  else num / den

/-- Text of `%f` (six digits after the decimal point) for the finite binary64 value
with the given bits, correctly rounded; `none` for infinities and NaNs, whose
spelling the C standard leaves to the implementation. -/
def fixedText (bits : Nat) : Option (List Char) :=
  let sign := bits / 2 ^ 63 % 2
  let e := bits / 2 ^ 52 % 2 ^ 11
  let frac := bits % 2 ^ 52
  if e = 2047 then none
  else
    let m := if e = 0 then frac else 2 ^ 52 + frac
    let ex := if e = 0 then 1 else e
    let q := if 1075 ≤ ex then m * 10 ^ 6 * 2 ^ (ex - 1075)
             else roundHalfEven (m * 10 ^ 6) (2 ^ (1075 - ex))
    let fp := Nat.toDigits 10 (q % 10 ^ 6)
    some ((if sign = 1 then ['-'] else []) ++ Nat.toDigits 10 (q / 10 ^ 6) ++ ['.']
          ++ List.replicate (6 - fp.length) '0' ++ fp)

/-- The results ISO C prescribes for the conversion specifications `%%`, `%d`, `%i`,
`%o`, `%x`, `%f` and `%s` written without flags, field width, precision or length
modifier. Every other specification is left undefined by this instance. -/
def stdc : Libc where
  snprintfNone fmt := if fmt = ['%', '%'] then some ['%'] else none
  snprintfInt fmt v :=
    if fmt = ['%', 'd'] ∨ fmt = ['%', 'i'] then some (decimalText v)
    else if fmt = ['%', 'o'] then some (Nat.toDigits 8 (asUnsigned v))
    else if fmt = ['%', 'x'] then some (Nat.toDigits 16 (asUnsigned v))
    else none
  snprintfDouble fmt bits := if fmt = ['%', 'f'] then fixedText bits else none
  snprintfStr fmt str := if fmt = ['%', 's'] then some str else none

/-! ## The string table: registration -/

/-- Modelled from the spec: `register_string` is defined outside `src/` (only its calls
are there). Spec 4.1: `register(text) -> hash` returns the existing hash if `text` was
registered before, otherwise computes the hash and stores the mapping. The hash
function of the interned strings is the parameter `hash`, a pure function of the
text (spec 3). The result is the returned hash and the table afterwards. -/
def register_string (hash : List Char → Nat) (tbl : HashMap) (str : List Char) :
    Nat × HashMap :=
  if tbl (hash str) = some str then (hash str, tbl)
  else (hash str, fun h => if h = hash str then some str else tbl h)

/-! ## The texture handle cache -/

/-- The result of an `int` product or sum of operands that are not negative, given its
exact value: undefined (`none`) when the value leaves the range of `int`. -/
def intResult (n : Nat) : Option Nat := if n < 2 ^ 31 then some n else none

/-- An image as `OIIO::ImageBuf` presents it after `init_spec`: the size of its full
region of interest, its channel count and its channel values. -/
structure ImageBuf where
  /-- The value `roi.width()` held by `int32_t width`, which is not negative. -/
  width : Nat
  /-- The value `roi.height()` held by `int32_t height`, which is not negative. -/
  height : Nat
  /-- The value `spec().nchannels`. -/
  nchannels : Nat
  /-- Value (as the bits of a `float`) of channel `k` of the pixel `(i, j)`. -/
  channel : Nat → Nat → Nat → Nat

/-- The default of the parameter `maxchannels` of `ImageBuf::getpixel`. -/
def maxchannels : Nat := 1000

/-- The call `image.getpixel(i, j, 0, &pixels[base])`: it stores the first
`min nchannels maxchannels` channel values of the pixel at `pixels[base ..]`;
`none` when a store falls outside `pixels`. -/
def getpixel (image : ImageBuf) (i j : Nat) (pixels : List Nat) (base : Nat) :
    Option (List Nat) :=
  (List.range (min image.nchannels maxchannels)).foldlM
    (fun px k => if base + k < px.length then some (px.set (base + k) (image.channel i j k))
                 else none)
    pixels

/-- The expression `width * height * 4` that sizes `std::vector<float> pixels`: two
products of `int`, `none` when one of them leaves the range of `int`; the result is
the number of floats of the vector. -/
def pixelFloats (image : ImageBuf) : Option Nat :=
  (intResult (image.width * image.height)).bind fun p => intResult (p * 4)

/-- The index `((j*width) + i) * 4 + 0` of `&pixels[..]`, computed in `int` from the
loop counters `i` and `j`: `none` when a product or a sum leaves the range of `int`. -/
def pixelIndex (width i j : Nat) : Option Nat :=
  (intResult (j * width)).bind fun a =>
    (intResult (a + i)).bind fun b =>
      (intResult (b * 4)).bind fun c => intResult (c + 0)

/-- The declaration `std::vector<float> pixels(width * height * 4)`, which fills the
vector with zeros, and the two loops that fill it, rows outermost; `none` when the
`int` arithmetic of the size or of an index overflows or a store falls outside
`pixels`. -/
def fillPixels (image : ImageBuf) : Option (List Nat) :=
  (pixelFloats image).bind fun n =>
    (List.range image.height).foldlM
      (fun px j => (List.range image.width).foldlM
        (fun px1 i => (pixelIndex image.width i j).bind fun base =>
          getpixel image i j px1 base) px)
      (List.replicate n 0)

/-- The initialisation `int32_t pitch = width * 4 * sizeof(float)` as the parameters
`spitch` and `width` of `cudaMemcpy2DToArray` receive it: the product `width * 4` is one
of `int` (`none` when it leaves the range of `int`), the product with
`sizeof(float) = 4` is one of `size_t`, the initialisation narrows it to `int32_t`
(modulo `2 ^ 32`, a negative value from `2 ^ 31` on) and the call converts that
`int32_t` to `size_t` (a negative value `v` becomes `2 ^ 64 + v`). -/
def pitchBytes (width : Nat) : Option Nat :=
  (intResult (width * 4)).map fun p =>
    let bytes : Nat := p * 4 % 2 ^ 64
    let low : Nat := bytes % 2 ^ 32
    if low < 2 ^ 31 then low else 2 ^ 64 - 2 ^ 32 + low

/-- The device operations `get_texture_handle` issues. -/
inductive DeviceOp where
  /-- The call `cudaMallocArray(&pixelArray, &channel_desc, width, height)`. -/
  | mallocArray (width height : Nat)
  /-- The call `cudaMemcpy2DToArray(pixelArray, 0, 0, pixels.data(), pitch, pitch, height, ..)`. -/
  | memcpy2DToArray (pixelArray : Nat) (pixels : List Nat) (pitch height : Nat)
  /-- The call `cudaCreateTextureObject(&cuda_tex, &res_desc, &tex_desc, nullptr)`
  for the array, with wrap addressing and linear filtering. -/
  | createTextureObject (pixelArray : Nat)
  deriving DecidableEq, Repr

/-- The collaborators outside the repository: OpenImageIO opening an image by name
(`none` when `init_spec` fails) and the CUDA runtime answering a device operation
after the given history (`none` for an error code, otherwise the value it hands
back: the array or the texture object). -/
structure World where
  /-- The call `image.init_spec(filename, 0, 0)`. -/
  init_spec : List Char → Option ImageBuf
  /-- The CUDA runtime. -/
  cuda : List DeviceOp → DeviceOp → Option Nat

/-- The part of the renderer that `get_texture_handle` touches. -/
structure Renderer where
  /-- The map `m_samplers` from file name to texture object. -/
  m_samplers : List Char → Option Nat
  /-- The messages given to `errhandler().errorf`, oldest first. -/
  errors : List (List Char)
  /-- The device operations issued so far, oldest first. -/
  device : List DeviceOp

/-- A freshly constructed renderer. -/
def Renderer.fresh : Renderer := { m_samplers := fun _ => none, errors := [], device := [] }

/-- How a call ends. -/
inductive Call (α : Type) where
  /-- Normal return of a value, with the renderer afterwards. -/
  | returned (value : α) (after : Renderer)
  /-- The call `exit(1)` of a failed `CUDA_CHECK`. -/
  | exit1
  /-- Undefined behaviour on the host before the first CUDA call: a store outside the
  pixel buffer, or `int` arithmetic (buffer size, store index, pitch) that leaves the
  range of `int`. -/
  | undefinedStore

/-- The value `(TextureHandle*)nullptr`. -/
def nullHandle : Nat := 0

/-- The function `OptixGridRenderer::good`: `handle != nullptr`. -/
def good (handle : Nat) : Bool := handle != nullHandle

/-- The function `OptixGridRenderer::get_texture_handle`; a handle is the pointer
value `reinterpret_cast<TextureHandle *>(itr->second)`. -/
def get_texture_handle (w : World) (r : Renderer) (filename : List Char) : Call Nat :=
  match r.m_samplers filename with
  | some tex => .returned tex r
  | none =>
    match w.init_spec filename with
    | none =>
      .returned nullHandle { r with errors := r.errors ++ ["Could not load: ".toList ++ filename] }
    | some image =>
      match fillPixels image with
      | none => .undefinedStore
      | some pixels =>
        match pitchBytes image.width with
        | none => .undefinedStore
        | some pitch =>
          let op1 := DeviceOp.mallocArray image.width image.height
          match w.cuda r.device op1 with
          | none => .exit1
          | some pixelArray =>
            let op2 := DeviceOp.memcpy2DToArray pixelArray pixels pitch image.height
            match w.cuda (r.device ++ [op1]) op2 with
            | none => .exit1
            | some _ =>
              let op3 := DeviceOp.createTextureObject pixelArray
              match w.cuda (r.device ++ [op1, op2]) op3 with
              | none => .exit1
              | some cuda_tex =>
                .returned cuda_tex
                  { r with m_samplers := fun f => if f = filename then some cuda_tex
                                                   else r.m_samplers f,
                           device := r.device ++ [op1, op2, op3] }

/-- The renderers that arise from a fresh one by calls of `get_texture_handle`. -/
inductive Reachable (w : World) : Renderer → Prop where
  /-- The fresh renderer. -/
  | fresh : Reachable w Renderer.fresh
  /-- A returning call of `get_texture_handle`. -/
  | call (r : Renderer) (filename : List Char) (h : Nat) (r1 : Renderer) :
      Reachable w r → get_texture_handle w r filename = .returned h r1 → Reachable w r1

/-- Number of `cudaCreateTextureObject` calls in a device history: the uploads completed. -/
def uploadCount (ops : List DeviceOp) : Nat :=
  (ops.filter (fun op => match op with
    | .createTextureObject _ => true
    | _ => false)).length

/-! ## Inputs used in the concrete statements -/

/-- A string table with the single entry `7 ↦ "a"`. -/
def tableA : HashMap := fun h => if h = 7 then some ['a'] else none

/-- One record with format hash 7 whose `args_size` field is `2 ^ 64 - 16`. -/
def wrapBytes : List Nat := bytesLE 7 8 ++ bytesLE (2 ^ 64 - 16) 8

/-- One record with format hash 7 and `args_size = 8`, its eight argument bytes and a
zero format hash. -/
def paddedBytes : List Nat := bytesLE 7 8 ++ bytesLE 8 8 ++ bytesLE 0 8 ++ bytesLE 0 8

/-- The format string `"x=%d y=%f\n"` of the decode example. -/
def exampleFormat : List Char := ['x', '=', '%', 'd', ' ', 'y', '=', '%', 'f', '\n']

/-- A string table that registers the hash `0x1234` for `exampleFormat`. -/
def exampleTable : HashMap := fun h => if h = 0x1234 then some exampleFormat else none

/-- The record `{0x1234, args_size = 16, args = [int 42, 4 bytes of padding, double 3.5]}`
followed by a zero format hash. -/
def exampleBytes : List Nat :=
  bytesLE 0x1234 8 ++ bytesLE 16 8 ++ bytesLE 42 4 ++ [0, 0, 0, 0]
    ++ bytesLE 0x400C000000000000 8 ++ bytesLE 0 8

/-- A 24 byte buffer: the record `{7, args_size = 0}` and the 8 bytes of a zero format
hash, which end the buffer. -/
def tightBytes : List Nat := bytesLE 7 8 ++ bytesLE 0 8 ++ bytesLE 0 8

/-- A world without any readable image; its CUDA runtime never fails. -/
def emptyWorld : World := { init_spec := fun _ => none, cuda := fun ops _ => some (ops.length + 1) }

/-- The file name `"/does/not/exist.exr"`. -/
def missingPath : List Char := "/does/not/exist.exr".toList

/-- A one pixel image with three channels. -/
def onePixel : ImageBuf := { width := 1, height := 1, nchannels := 3, channel := fun _ _ k => k + 1 }

/-- The file name `"a.exr"`. -/
def pixelPath : List Char := "a.exr".toList

/-- A world whose only readable image is `onePixel` under the name `"a.exr"`; its CUDA
runtime never fails and hands back the number of the operation. -/
def smallWorld : World :=
  { init_spec := fun f => if f = pixelPath then some onePixel else none,
    cuda := fun ops _ => some (ops.length + 1) }

/-- The renderer after `get_texture_handle` has uploaded `"a.exr"` in `smallWorld`. -/
def afterUpload : Renderer :=
  { m_samplers := fun f => if f = pixelPath then some 3 else Renderer.fresh.m_samplers f,
    errors := [],
    device := [.mallocArray 1 1, .memcpy2DToArray 1 [1, 2, 3, 0] 16 1, .createTextureObject 1] }

/-- A shader group of `shaders()` as the shading system answers for it after
`optimize_group`: the attributes `groupname`, `group_init_name`, `group_entry_name`
and `ptx_compiled_version`, and whether `find_symbol` finds the output `Cout`. -/
structure ShaderGroup where
  /-- The attribute `groupname`. -/
  groupname : List Char
  /-- The attribute `group_init_name`. -/
  group_init_name : List Char
  /-- The attribute `group_entry_name`. -/
  group_entry_name : List Char
  /-- The attribute `ptx_compiled_version`, the compiled device code. -/
  ptx_compiled_version : List Char
  /-- Whether `find_symbol` finds `outputs[0]`. -/
  has_output : Bool
  deriving DecidableEq, Repr

/-- The values of `OptixProgramGroupDesc::kind` that occur. -/
inductive ProgramGroupKind where
  /-- The kind `OPTIX_PROGRAM_GROUP_KIND_RAYGEN`. -/
  | raygen
  /-- The kind `OPTIX_PROGRAM_GROUP_KIND_MISS`. -/
  | miss
  /-- The kind `OPTIX_PROGRAM_GROUP_KIND_HITGROUP`. -/
  | hitgroup
  /-- The kind `OPTIX_PROGRAM_GROUP_KIND_CALLABLES`. -/
  | callables
  deriving DecidableEq, Repr

/-- An `OptixProgramGroup`, represented by the description it is created from. An
`OptixModule` is represented by its index in the vector `modules`. -/
structure ProgramGroup where
  /-- The field `kind`. -/
  kind : ProgramGroupKind
  /-- The module of the entry function (`module`, `moduleCH`, `moduleDC`). -/
  module : Nat
  /-- The entry function name (`entryFunctionName`, `..NameCH`, `..NameDC`). -/
  entryFunctionName : List Char
  /-- The field `entryFunctionNameAH` of a hit group (with `moduleAH` the same module). -/
  entryFunctionNameAH : Option (List Char)
  deriving DecidableEq, Repr

/-- An `EmptyRecord`: the header that `optixSbtRecordPackHeader` packs from a program
group, represented by that group, and the field `data`. -/
structure EmptyRecord where
  /-- The group the header was packed from. -/
  header : ProgramGroup
  /-- The field `data`, a pointer sized tag. -/
  data : Nat
  deriving DecidableEq, Repr

/-- The fields of `OptixShaderBindingTable` that the renderer sets. A device pointer
is represented by the records copied to the allocation it points to, the null
pointer by the empty list. -/
structure ShaderBindingTable where
  /-- The field `raygenRecord`. -/
  raygenRecord : List EmptyRecord
  /-- The field `missRecordBase`. -/
  missRecordBase : List EmptyRecord
  /-- The field `missRecordStrideInBytes`. -/
  missRecordStrideInBytes : Nat
  /-- The field `missRecordCount`. -/
  missRecordCount : Nat
  /-- The field `hitgroupRecordBase`. -/
  hitgroupRecordBase : List EmptyRecord
  /-- The field `hitgroupRecordStrideInBytes`. -/
  hitgroupRecordStrideInBytes : Nat
  /-- The field `hitgroupRecordCount`. -/
  hitgroupRecordCount : Nat
  /-- The field `callablesRecordBase`. -/
  callablesRecordBase : List EmptyRecord
  /-- The field `callablesRecordStrideInBytes`. -/
  callablesRecordStrideInBytes : Nat
  /-- The field `callablesRecordCount`. -/
  callablesRecordCount : Nat
  deriving DecidableEq, Repr

/-- The value `{}` of an `OptixShaderBindingTable`. -/
def ShaderBindingTable.zero : ShaderBindingTable :=
  { raygenRecord := [], missRecordBase := [], missRecordStrideInBytes := 0, missRecordCount := 0,
    hitgroupRecordBase := [], hitgroupRecordStrideInBytes := 0, hitgroupRecordCount := 0,
    callablesRecordBase := [], callablesRecordStrideInBytes := 0, callablesRecordCount := 0 }

/-- The two binding tables of the renderer, named as `optixLaunch` is handed them. -/
inductive SbtMember where
  /-- The member `m_optix_sbt`. -/
  | m_optix_sbt
  /-- The member `m_setglobals_optix_sbt`. -/
  | m_setglobals_optix_sbt
  deriving DecidableEq, Repr

/-- The calls to the OptiX and CUDA libraries that are wrapped in `OPTIX_CHECK`,
`CUDA_CHECK` or `CUDA_SYNC_CHECK`. -/
inductive DriverCall where
  /-- The call `optixModuleCreateFromPTX` for the given PTX text. -/
  | optixModuleCreateFromPTX (ptx : List Char)
  /-- The call `optixProgramGroupCreate` for the given descriptions. -/
  | optixProgramGroupCreate (descs : List ProgramGroup)
  /-- The call `optixPipelineCreate` for `final_groups`, with `maxTraceDepth`. -/
  | optixPipelineCreate (final_groups : List ProgramGroup) (maxTraceDepth : Nat)
  /-- The call `optixUtilAccumulateStackSizes(program_group, &stack_sizes)`. -/
  | optixUtilAccumulateStackSizes (program_group : ProgramGroup)
  /-- The call `optixUtilComputeStackSizes` with the three maximal depths. -/
  | optixUtilComputeStackSizes (max_trace_depth max_cc_depth max_dc_depth : Nat)
  /-- The call `optixPipelineSetStackSize` with `max_traversal_depth`. -/
  | optixPipelineSetStackSize (max_traversal_depth : Nat)
  /-- The call `optixSbtRecordPackHeader(group, &record)`. -/
  | optixSbtRecordPackHeader (group : ProgramGroup)
  /-- The call `cudaMalloc(&p, bytes)`. -/
  | cudaMalloc (bytes : Nat)
  /-- A call `cudaMemcpy(.., cudaMemcpyHostToDevice)` of binding table records. -/
  | cudaMemcpyRecords (records : List EmptyRecord) (bytes : Nat)
  /-- The call `cudaMemcpy(d_launch_params, &params, .., cudaMemcpyHostToDevice)` for the
  parameters of a launch of the given resolution. -/
  | cudaMemcpyParams (xres yres : Int) (bytes : Nat)
  /-- The call `optixLaunch` with the given binding table and launch size. -/
  | optixLaunch (sbt : SbtMember) (width height depth : Int)
  /-- The macro `CUDA_SYNC_CHECK()`: `cudaDeviceSynchronize` and `cudaGetLastError`. -/
  | cudaSyncCheck
  /-- The call `cudaMemcpy(printf_buffer.data(), d_osl_printf_buffer, .., cudaMemcpyDeviceToHost)`. -/
  | cudaMemcpyPrintfBuffer (bytes : Nat)
  /-- The call `cudaMemcpy(tmp_buff.data(), d_output_buffer, .., cudaMemcpyDeviceToHost)`. -/
  | cudaMemcpyOutputBuffer (bytes : Nat)
  /-- The call `optixDeviceContextDestroy(m_optix_ctx)`. -/
  | optixDeviceContextDestroy (ctx : Nat)
  deriving DecidableEq, Repr

/-- What lies outside the repository for the pipeline code: whether a library call
succeeds after the given history of calls, the PTX files `load_ptx_file` can read, the
sizes of the types `EmptyRecord` and `RenderParams` and the constant
`OSL_PRINTF_BUFFER_SIZE` (all three declared outside `src/`), and the bytes of the
printf buffer the device hands back after the given history. -/
structure Device where
  /-- Whether the call returns `OPTIX_SUCCESS` / `cudaSuccess`. -/
  succeeds : List DriverCall → DriverCall → Bool
  /-- The text of the PTX file of that name, `none` when it cannot be found or read. -/
  ptx_file : List Char → Option (List Char)
  /-- The value `sizeof(EmptyRecord)`. -/
  sizeofEmptyRecord : Nat
  /-- The value `sizeof(RenderParams)`. -/
  sizeofRenderParams : Nat
  /-- The constant `OSL_PRINTF_BUFFER_SIZE`. -/
  OSL_PRINTF_BUFFER_SIZE : Nat
  /-- The content of the device printf buffer. -/
  printf_buffer : List DriverCall → Memory

/-- The severities of the messages sent to `errhandler()`. -/
inductive Severity where
  /-- A message of `warning`. -/
  | warning
  /-- A message of `errorf`. -/
  | error
  /-- A message of `severef`. -/
  | severe
  deriving DecidableEq, Repr

/-- The members of the renderer that the pipeline code reads and writes, with the
history of library calls, the messages logged, the files written and the lines
printed. -/
structure Session where
  /-- The list `shaders()`. -/
  shaders : List ShaderGroup
  /-- The option `saveptx`. -/
  saveptx : Bool
  /-- The member `m_xres`. -/
  m_xres : Int
  /-- The member `m_yres`. -/
  m_yres : Int
  /-- The member `m_optix_ctx`, 0 for the null context. -/
  m_optix_ctx : Nat
  /-- The member `m_optix_pipeline`: the groups linked by `optixPipelineCreate`. -/
  m_optix_pipeline : Option (List ProgramGroup)
  /-- The member `m_optix_sbt`. -/
  m_optix_sbt : ShaderBindingTable
  /-- The member `m_setglobals_optix_sbt`. -/
  m_setglobals_optix_sbt : ShaderBindingTable
  /-- The member `d_output_buffer`: the size in bytes of the allocation it points to. -/
  d_output_buffer : Option Nat
  /-- The library calls made so far, oldest first, a failed call included. -/
  calls : List DriverCall
  /-- The messages given to `errhandler()`, oldest first. -/
  messages : List (Severity × List Char)
  /-- The files written (name, content), oldest first. -/
  files : List (List Char × List Char)
  /-- The lines printed by `processPrintfBuffer`, oldest first. -/
  printed : List (List Char)
  deriving DecidableEq, Repr

/-- How a member function of the renderer ends. -/
inductive Ended (α : Type) where
  /-- Normal return of a value. -/
  | returned (value : α) (after : Session)
  /-- The call `exit(1)` of a failed `OPTIX_CHECK`, `CUDA_CHECK` or `CUDA_SYNC_CHECK`. -/
  | exit1 (after : Session)
  /-- Behaviour the language leaves undefined (an index outside a vector, a signed
  overflow). -/
  | undefined (after : Session)
  /-- The decoder `processPrintfBuffer` did not leave its loop normally: it stopped with
  a fault, or the iterations granted to the embedding ran out. -/
  | decoding (reason : Exit) (after : Session)
  deriving DecidableEq, Repr

/-- The session a call ends in. -/
def Ended.after {α : Type} : Ended α → Session
  | .returned _ s => s
  | .exit1 s => s
  | .undefined s => s
  | .decoding _ s => s

/-- A sequence of checked library calls: each is made in turn; at the first that fails
the macro calls `exit(1)` (`Except.error`, with the session at that point). -/
def checked (dev : Device) : List DriverCall → Session → Except Session Session
  | [], s => .ok s
  | c :: cs, s =>
    if dev.succeeds s.calls c then checked dev cs { s with calls := s.calls ++ [c] }
    else .error { s with calls := s.calls ++ [c] }

/-- The function `OptixGridRenderer::load_ptx_file`: the text of the file, or the empty
string after `severef("Unable to load %s", filename)`. -/
def load_ptx_file (dev : Device) (filename : List Char) (s : Session) : List Char × Session :=
  match dev.ptx_file filename with
  | some ptx_string => (ptx_string, s)
  | none => ([], { s with messages := s.messages ++ [(.severe, "Unable to load ".toList ++ filename)] })

/-- The group `raygen_group`: entry `__raygen__` of the renderer module `modules[0]`. -/
def raygen_group : ProgramGroup :=
  { kind := .raygen, module := 0, entryFunctionName := "__raygen__".toList,
    entryFunctionNameAH := none }

/-- The group `setglobals_raygen_group`: entry `__raygen__setglobals`. -/
def setglobals_raygen_group : ProgramGroup :=
  { kind := .raygen, module := 0, entryFunctionName := "__raygen__setglobals".toList,
    entryFunctionNameAH := none }

/-- The group `miss_group`: entry `__miss__`. -/
def miss_group : ProgramGroup :=
  { kind := .miss, module := 0, entryFunctionName := "__miss__".toList,
    entryFunctionNameAH := none }

/-- The group `setglobals_miss_group`: entry `__miss__setglobals`. -/
def setglobals_miss_group : ProgramGroup :=
  { kind := .miss, module := 0, entryFunctionName := "__miss__setglobals".toList,
    entryFunctionNameAH := none }

/-- The group `hitgroup_group`: entries `__closesthit__` and `__anyhit__`. -/
def hitgroup_group : ProgramGroup :=
  { kind := .hitgroup, module := 0, entryFunctionName := "__closesthit__".toList,
    entryFunctionNameAH := some "__anyhit__".toList }

/-- The group `rend_lib_group`: the direct callable `__direct_callable__dummy_rend_lib`
of the support library module `modules[1]`. -/
def rend_lib_group : ProgramGroup :=
  { kind := .callables, module := 1,
    entryFunctionName := "__direct_callable__dummy_rend_lib".toList,
    entryFunctionNameAH := none }

/-- The description `pgDesc[0]` of a shader group whose module is `modules[module]`. -/
def init_group (module : Nat) (g : ShaderGroup) : ProgramGroup :=
  { kind := .callables, module := module, entryFunctionName := g.group_init_name,
    entryFunctionNameAH := none }

/-- The description `pgDesc[1]` of a shader group whose module is `modules[module]`. -/
def entry_group (module : Nat) (g : ShaderGroup) : ProgramGroup :=
  { kind := .callables, module := module, entryFunctionName := g.group_entry_name,
    entryFunctionNameAH := none }

/-- The checked calls made for the renderer module: the module and the raygen,
set-globals raygen, miss, set-globals miss and hit groups. -/
def rendererCalls (program_ptx : List Char) : List DriverCall :=
  [.optixModuleCreateFromPTX program_ptx,
   .optixProgramGroupCreate [raygen_group],
   .optixProgramGroupCreate [setglobals_raygen_group],
   .optixProgramGroupCreate [miss_group],
   .optixProgramGroupCreate [setglobals_miss_group],
   .optixProgramGroupCreate [hitgroup_group]]

/-- The checked calls made for the support library: its module and its group. -/
def rendLibCalls (rend_lib_ptx : List Char) : List DriverCall :=
  [.optixModuleCreateFromPTX rend_lib_ptx, .optixProgramGroupCreate [rend_lib_group]]

/-- The checked calls made for one shader group whose module becomes `modules[module]`. -/
def materialCalls (module : Nat) (g : ShaderGroup) : List DriverCall :=
  [.optixModuleCreateFromPTX g.ptx_compiled_version,
   .optixProgramGroupCreate [init_group module g, entry_group module g]]

/-- The loop `for (const auto& groupref : shaders())` of `make_optix_materials`, with
the locals `modules.size()`, `program_groups` and `mtl_id`. The value is `none` after
`return false` and the vector `program_groups` at the end of the loop otherwise. The
calls `attribute("renderer_outputs")` and `optimize_group` are the shading system's
and have no part in the session. -/
def createMaterials (dev : Device) :
    List ShaderGroup → Nat → List ProgramGroup → Nat → Session →
      Ended (Option (List ProgramGroup))
  | [], _, program_groups, _, s => .returned (some program_groups) s
  | g :: rest, modules, program_groups, mtl_id, s =>
    let s1 : Session :=
      { s with messages := s.messages ++
          (if g.has_output = false ∧ s.m_xres > 1 ∧ s.m_yres > 1 then
            [(.warning, "Requested output 'Cout', which wasn't found".toList)]
           else []) }
    if g.ptx_compiled_version = [] then
      .returned none
        { s1 with messages := s1.messages ++
            [(.error, "Failed to generate PTX for ShaderGroup ".toList ++ g.groupname)] }
    else
      let s2 : Session :=
        { s1 with files := s1.files ++
            (if s1.saveptx then
              [(g.groupname ++ ['_'] ++ decimalText mtl_id ++ ".ptx".toList,
                g.ptx_compiled_version)]
             else []) }
      match checked dev (materialCalls modules g) s2 with
      | .error s3 => .exit1 s3
      | .ok s3 =>
        createMaterials dev rest (modules + 1)
          (program_groups ++ [init_group modules g, entry_group modules g])
          (if s1.saveptx then mtl_id + 1 else mtl_id) s3

/-- The vector `final_groups`, given `program_groups[0]` and `program_groups[1]`. -/
def final_groups (pg0 pg1 : ProgramGroup) : List ProgramGroup :=
  [rend_lib_group, raygen_group, miss_group, hitgroup_group, pg0, pg1,
   setglobals_raygen_group, setglobals_miss_group]

/-- The first part of `make_optix_materials`, up to the call `optixPipelineCreate`,
which sets `m_optix_pipeline`. The value is `none` after `return false` and the
groups `program_groups[0]`, `program_groups[1]` otherwise; indexing `program_groups`
is undefined when the loop created no group. -/
def createPipeline (dev : Device) (s : Session) : Ended (Option (ProgramGroup × ProgramGroup)) :=
  let l1 := load_ptx_file dev "optix_grid_renderer.ptx".toList s
  if l1.1 = [] then
    .returned none
      { l1.2 with messages := l1.2.messages ++
          [(.severe, "Could not find PTX for the raygen program".toList)] }
  else
    match checked dev (rendererCalls l1.1) l1.2 with
    | .error s2 => .exit1 s2
    | .ok s2 =>
      let l3 := load_ptx_file dev "rend_lib.ptx".toList s2
      if l3.1 = [] then
        .returned none
          { l3.2 with messages := l3.2.messages ++
              [(.severe, "Could not find PTX for the raygen program".toList)] }
      else
        match checked dev (rendLibCalls l3.1) l3.2 with
        | .error s4 => .exit1 s4
        | .ok s4 =>
          match createMaterials dev s4.shaders 2 [] 0 s4 with
          | .returned none s5 => .returned none s5
          | .returned (some (pg0 :: pg1 :: _)) s5 =>
            match checked dev [.optixPipelineCreate (final_groups pg0 pg1) 1] s5 with
            | .error s6 => .exit1 s6
            | .ok s6 =>
              .returned (some (pg0, pg1))
                { s6 with m_optix_pipeline := some (final_groups pg0 pg1) }
          | .returned (some _) s5 => .undefined s5
          | .exit1 s5 => .exit1 s5
          | .undefined s5 => .undefined s5
          | .decoding e s5 => .decoding e s5

/-- The checked calls that set the pipeline stack size: one
`optixUtilAccumulateStackSizes` per group of `final_groups`, then
`optixUtilComputeStackSizes` and `optixPipelineSetStackSize`. -/
def stackSizeCalls (groups : List ProgramGroup) : List DriverCall :=
  groups.map .optixUtilAccumulateStackSizes ++
    [.optixUtilComputeStackSizes 1 1 1, .optixPipelineSetStackSize 1]

/-- The records `raygenRecord`, `missRecord`, `hitgroupRecord`, `callablesRecord[0]`,
`callablesRecord[1]`, `setglobals_raygenRecord`, `setglobals_missRecord`, in the order
in which their headers are packed, with the `data` tags assigned to them. -/
def sbtRecords (pg0 pg1 : ProgramGroup) : List EmptyRecord :=
  [{ header := raygen_group, data := 5 }, { header := miss_group, data := 0 },
   { header := hitgroup_group, data := 0 }, { header := pg0, data := 1 },
   { header := pg1, data := 2 }, { header := setglobals_raygen_group, data := 0 },
   { header := setglobals_miss_group, data := 0 }]

/-- The checked calls that build the binding tables: seven `optixSbtRecordPackHeader`,
six `cudaMalloc` and six `cudaMemcpy`. -/
def sbtCalls (dev : Device) (pg0 pg1 : ProgramGroup) : List DriverCall :=
  (sbtRecords pg0 pg1).map (fun r => .optixSbtRecordPackHeader r.header) ++
  [.cudaMalloc dev.sizeofEmptyRecord, .cudaMalloc dev.sizeofEmptyRecord,
   .cudaMalloc dev.sizeofEmptyRecord, .cudaMalloc (2 * dev.sizeofEmptyRecord),
   .cudaMalloc dev.sizeofEmptyRecord, .cudaMalloc dev.sizeofEmptyRecord,
   .cudaMemcpyRecords [{ header := raygen_group, data := 5 }] dev.sizeofEmptyRecord,
   .cudaMemcpyRecords [{ header := miss_group, data := 0 }] dev.sizeofEmptyRecord,
   .cudaMemcpyRecords [{ header := hitgroup_group, data := 0 }] dev.sizeofEmptyRecord,
   .cudaMemcpyRecords [{ header := pg0, data := 1 }, { header := pg1, data := 2 }]
     (2 * dev.sizeofEmptyRecord),
   .cudaMemcpyRecords [{ header := setglobals_raygen_group, data := 0 }] dev.sizeofEmptyRecord,
   .cudaMemcpyRecords [{ header := setglobals_miss_group, data := 0 }] dev.sizeofEmptyRecord]

/-- The value given to `m_optix_sbt`. -/
def renderSbt (dev : Device) (pg0 pg1 : ProgramGroup) : ShaderBindingTable :=
  { raygenRecord := [{ header := raygen_group, data := 5 }],
    missRecordBase := [{ header := miss_group, data := 0 }],
    missRecordStrideInBytes := dev.sizeofEmptyRecord,
    missRecordCount := 1,
    hitgroupRecordBase := [{ header := hitgroup_group, data := 0 }],
    hitgroupRecordStrideInBytes := dev.sizeofEmptyRecord,
    hitgroupRecordCount := 1,
    callablesRecordBase := [{ header := pg0, data := 1 }, { header := pg1, data := 2 }],
    callablesRecordStrideInBytes := dev.sizeofEmptyRecord,
    callablesRecordCount := 2 }

/-- The value given to `m_setglobals_optix_sbt`. -/
def setglobalsSbt (dev : Device) : ShaderBindingTable :=
  { ShaderBindingTable.zero with
    raygenRecord := [{ header := setglobals_raygen_group, data := 0 }],
    missRecordBase := [{ header := setglobals_miss_group, data := 0 }],
    missRecordStrideInBytes := dev.sizeofEmptyRecord,
    missRecordCount := 1 }

/-- The function `OptixGridRenderer::make_optix_materials`. -/
def make_optix_materials (dev : Device) (s : Session) : Ended Bool :=
  match createPipeline dev s with
  | .returned none s1 => .returned false s1
  | .returned (some (pg0, pg1)) s1 =>
    match checked dev (stackSizeCalls (final_groups pg0 pg1)) s1 with
    | .error s2 => .exit1 s2
    | .ok s2 =>
      match checked dev (sbtCalls dev pg0 pg1) s2 with
      | .error s3 => .exit1 s3
      | .ok s3 =>
        .returned true
          { s3 with m_optix_sbt := renderSbt dev pg0 pg1,
                    m_setglobals_optix_sbt := setglobalsSbt dev }
  | .exit1 s1 => .exit1 s1
  | .undefined s1 => .undefined s1
  | .decoding e s1 => .decoding e s1

/-- The function `OptixGridRenderer::finalize_scene`: it calls `make_optix_materials`,
drops the value returned and returns `true`. -/
def finalize_scene (dev : Device) (s : Session) : Ended Bool :=
  match make_optix_materials dev s with
  | .returned _ s1 => .returned true s1
  | .exit1 s1 => .exit1 s1
  | .undefined s1 => .undefined s1
  | .decoding e s1 => .decoding e s1

/-- The product of two `int`, undefined when it leaves the range of `int`. -/
def intMul (a b : Int) : Option Int :=
  if -(2 ^ 31) ≤ a * b ∧ a * b < 2 ^ 31 then some (a * b) else none

/-- The expression `xres * yres * channels * sizeof(float)`: two products of `int`, then
the conversion to `size_t` and the product with `sizeof(float) = 4` modulo `2 ^ 64`. -/
def floatBytes (xres yres channels : Int) : Option Nat :=
  (intMul xres yres).bind fun p =>
    (intMul p channels).map fun q => (q % 2 ^ 64).toNat * 4 % 2 ^ 64

/-- The checked calls of `render` that follow the assignments of `m_xres` and `m_yres`. -/
def renderCalls (dev : Device) (xres yres : Int) : List DriverCall :=
  [.cudaMemcpyParams xres yres dev.sizeofRenderParams,
   .optixLaunch .m_setglobals_optix_sbt 1 1 1,
   .cudaSyncCheck,
   .optixLaunch .m_optix_sbt xres yres 1,
   .cudaSyncCheck,
   .cudaMemcpyPrintfBuffer dev.OSL_PRINTF_BUFFER_SIZE]

/-- The function `OptixGridRenderer::render`. The string table `m_hash_map`, the C
library and the number of iterations granted to the decoder are parameters. -/
def render (dev : Device) (L : Libc) (tbl : HashMap) (fuel : Nat) (xres yres : Int)
    (s : Session) : Ended Unit :=
  match floatBytes xres yres 4 with
  | none => .undefined s
  | some bytes =>
    match checked dev [.cudaMalloc bytes] s with
    | .error s1 => .exit1 s1
    | .ok s1 =>
      match checked dev [.cudaMalloc dev.sizeofRenderParams]
          { s1 with d_output_buffer := some bytes } with
      | .error s2 => .exit1 s2
      | .ok s2 =>
        match checked dev (renderCalls dev xres yres)
            { s2 with m_xres := xres, m_yres := yres } with
        | .error s3 => .exit1 s3
        | .ok s3 =>
          match processPrintfBuffer L tbl (dev.printf_buffer s3.calls)
              dev.OSL_PRINTF_BUFFER_SIZE fuel with
          | (d, .sentinel) => .returned () { s3 with printed := s3.printed ++ d.lines }
          | (d, .sizeReached) => .returned () { s3 with printed := s3.printed ++ d.lines }
          | (d, e) => .decoding e { s3 with printed := s3.printed ++ d.lines }

/-- The function `OptixGridRenderer::finalize_pixel_buffer`, up to the copy of the
device output buffer into `tmp_buff`. -/
def finalize_pixel_buffer (dev : Device) (s : Session) : Ended Unit :=
  match floatBytes s.m_xres s.m_yres 3 with
  | none => .undefined s
  | some bytes =>
    match checked dev [.cudaMemcpyOutputBuffer bytes] s with
    | .error s1 => .exit1 s1
    | .ok s1 => .returned () s1

/-- The function `OptixGridRenderer::clear`. -/
def clear (dev : Device) (s : Session) : Ended Unit :=
  if s.m_optix_ctx ≠ 0 then
    match checked dev [.optixDeviceContextDestroy s.m_optix_ctx] { s with shaders := [] } with
    | .error s1 => .exit1 s1
    | .ok s1 => .returned () { s1 with m_optix_ctx := 0 }
  else .returned () { s with shaders := [] }

/-- The destructor `OptixGridRenderer::~OptixGridRenderer`. -/
def destroy (dev : Device) (s : Session) : Ended Unit :=
  if s.m_optix_ctx ≠ 0 then
    match checked dev [.optixDeviceContextDestroy s.m_optix_ctx] s with
    | .error s1 => .exit1 s1
    | .ok s1 => .returned () s1
  else .returned () s

/-- The `optixSbtRecordPackHeader` calls of a history: the groups packed, in order. -/
def packedGroups (calls : List DriverCall) : List ProgramGroup :=
  calls.filterMap (fun c => match c with
    | .optixSbtRecordPackHeader g => some g
    | _ => none)

/-- Whether a call sets the pipeline stack size: `optixUtilAccumulateStackSizes`,
`optixUtilComputeStackSizes` or `optixPipelineSetStackSize`. -/
def isStackSizeCall : DriverCall → Bool
  | .optixUtilAccumulateStackSizes _ => true
  | .optixUtilComputeStackSizes _ _ _ => true
  | .optixPipelineSetStackSize _ => true
  | _ => false

/-- Whether a call assembles a binding table: `optixSbtRecordPackHeader`, `cudaMalloc`
or a `cudaMemcpy` of records. -/
def isSbtCall : DriverCall → Bool
  | .optixSbtRecordPackHeader _ => true
  | .cudaMalloc _ => true
  | .cudaMemcpyRecords _ _ => true
  | _ => false

/-- The program groups the loop over the shader groups creates, two per shader
group (init, entry), when the first module of the loop becomes `modules[module]`. -/
def materialGroups : Nat → List ShaderGroup → List ProgramGroup
  | _, [] => []
  | module, g :: rest =>
    init_group module g :: entry_group module g :: materialGroups (module + 1) rest

/-- The checked calls the loop over the shader groups makes when none fails. -/
def allMaterialCalls : Nat → List ShaderGroup → List DriverCall
  | _, [] => []
  | module, g :: rest => materialCalls module g ++ allMaterialCalls (module + 1) rest

/-! ## Inputs used in the concrete statements on the pipeline -/

/-- A device on which every library call succeeds and both support modules can be
read; the printf buffer it hands back is all zero. -/
def plainDevice : Device :=
  { succeeds := fun _ _ => true,
    ptx_file := fun f =>
      if f = "optix_grid_renderer.ptx".toList then some "renderer".toList
      else if f = "rend_lib.ptx".toList then some "rendlib".toList else none,
    sizeofEmptyRecord := 48,
    sizeofRenderParams := 64,
    OSL_PRINTF_BUFFER_SIZE := 64,
    printf_buffer := fun _ => ofBytes [] }

/-- The device `plainDevice` without the file `rend_lib.ptx`. -/
def noRendLibDevice : Device :=
  { plainDevice with
    ptx_file := fun f =>
      if f = "optix_grid_renderer.ptx".toList then some "renderer".toList else none }

/-- The device `plainDevice` on which `optixUtilComputeStackSizes` fails. -/
def noStackDevice : Device :=
  { plainDevice with
    succeeds := fun _ c => match c with
      | .optixUtilComputeStackSizes _ _ _ => false
      | _ => true }

/-- A shader group `A` with compiled device code. -/
def shaderA : ShaderGroup :=
  { groupname := ['A'], group_init_name := "A_init".toList,
    group_entry_name := "A_entry".toList, ptx_compiled_version := "ptxA".toList,
    has_output := true }

/-- A shader group `B` with compiled device code. -/
def shaderB : ShaderGroup :=
  { groupname := ['B'], group_init_name := "B_init".toList,
    group_entry_name := "B_entry".toList, ptx_compiled_version := "ptxB".toList,
    has_output := true }

/-- A session with the given shader groups, a device context and nothing done yet. -/
def newSession (shaders : List ShaderGroup) : Session :=
  { shaders := shaders, saveptx := false, m_xres := 1, m_yres := 1, m_optix_ctx := 1,
    m_optix_pipeline := none, m_optix_sbt := ShaderBindingTable.zero,
    m_setglobals_optix_sbt := ShaderBindingTable.zero, d_output_buffer := none,
    calls := [], messages := [], files := [], printed := [] }

/-- The session `newSession [shaderA]` after `clear()`. -/
def clearedSession : Session :=
  { newSession [] with m_optix_ctx := 0, calls := [.optixDeviceContextDestroy 1] }

/-- The library calls of a complete `render(xres, yres)`, in order, where `bytes` is the
size of the output buffer. -/
def renderHistory (dev : Device) (bytes : Nat) (xres yres : Int) : List DriverCall :=
  [.cudaMalloc bytes, .cudaMalloc dev.sizeofRenderParams] ++ renderCalls dev xres yres

/-- The session after `render(2, 2)` on `plainDevice` from `newSession [shaderA]`. -/
def renderedSession : Session :=
  (render plainDevice stdc tableA 1 2 2 (newSession [shaderA])).after

/-- The session in which `make_optix_materials` ends on `noRendLibDevice`. -/
def noRendLibSession : Session :=
  (make_optix_materials noRendLibDevice (newSession [shaderA])).after

/-- The session in which `createPipeline` ends on `noStackDevice`. -/
def linkedSession : Session :=
  (createPipeline noStackDevice (newSession [shaderA])).after

/-- The session in which `make_optix_materials` ends on `noStackDevice`. -/
def stackFailedSession : Session :=
  (make_optix_materials noStackDevice (newSession [shaderA])).after

/-- The session in which `make_optix_materials` ends on `plainDevice` for one shader
group. -/
def oneMaterialSession : Session :=
  (make_optix_materials plainDevice (newSession [shaderA])).after

/-- The session in which `make_optix_materials` ends on `plainDevice` for two shader
groups. -/
def twoMaterialSession : Session :=
  (make_optix_materials plainDevice (newSession [shaderA, shaderB])).after

/-! ## The globals map -/

/-- The map `m_globals_map` from name to value; `none` stands for a name without entry. -/
abbrev GlobalsMap := List Char → Option Nat

/-- The function `OptixGridRenderer::register_global`: the value returned and the map
afterwards. -/
def register_global (m : GlobalsMap) (str : List Char) (value : Nat) : Nat × GlobalsMap :=
  match m str with
  | some stored => (stored, m)
  | none => (value, fun k => if k = str then some value else m k)

/-- The function `OptixGridRenderer::fetch_global`: the value returned, the content of
`*value` afterwards (it is `value` before the call) and the map afterwards. -/
def fetch_global (m : GlobalsMap) (str : List Char) (value : Nat) : Bool × Nat × GlobalsMap :=
  match m str with
  | some stored => (true, stored, m)
  | none => (false, value, m)

/-! ## Inputs used in the concrete statements on formats, images and globals -/

/-- A globals map with the single binding `"a" ↦ 5`. -/
def globalsA : GlobalsMap := fun k => if k = ['a'] then some 5 else none

/-- A one pixel image with five channels. -/
def fivePixel : ImageBuf :=
  { width := 1, height := 1, nchannels := 5, channel := fun _ _ k => k + 1 }

/-- A world whose only readable image is `fivePixel` under the name `"a.exr"`. -/
def fiveWorld : World :=
  { init_spec := fun f => if f = pixelPath then some fivePixel else none,
    cuda := fun ops _ => some (ops.length + 1) }

/-- A format string of 4096 characters `a`, without any conversion. -/
def longFormat : List Char := List.replicate 4096 'a'

/-- A string table with the single entry `7 ↦ longFormat`. -/
def longTable : HashMap := fun h => if h = 7 then some longFormat else none

/-- Fresh locals of a record: `src` past the two header fields, `dst = 0`. -/
def Locals.fresh : Locals := { src := 16, dst := 0, buffer := [], reads := [] }

/-- Sixteen header bytes, the `int` -2 at offset 16, four bytes of padding, the double
3.5 at offset 24 and the hash 7 at offset 32. -/
def argBytes : List Nat :=
  bytesLE 0 8 ++ bytesLE 0 8 ++ bytesLE (2 ^ 32 - 2) 4 ++ [0, 0, 0, 0]
    ++ bytesLE 0x400C000000000000 8 ++ bytesLE 7 8

/-- Offset of the header of record number `k` of a buffer: the first header is at
offset 0, and the loop moves on by `ptr = ptr + next_args`, so each header lies
`next_args` bytes after the header before it. -/
def recordStart (mem : Memory) : Nat → Nat
  | 0 => 0
  | k + 1 => recordStart mem k + nextArgs (readU64 mem (recordStart mem k + 8))

/-- A 32 byte buffer: the record `{7, args_size = 8}` with eight argument bytes `0xFF`
(two `int` of value -1), followed by a zero format hash. -/
def signedBytes : List Nat := bytesLE 7 8 ++ bytesLE 8 8 ++ bytesLE (2 ^ 64 - 1) 8 ++ bytesLE 0 8

/-! ## Theorems: the record loop -/

theorem loadLE_lt (mem : Memory) (n a : Nat) : loadLE mem a n < 256 ^ n := by
  induction n generalizing a with
  | zero => simp [loadLE]
  | succ n ih =>
    have h1 := ih (a + 1)
    have h2 : byteAt mem a < 256 := Nat.mod_lt _ (by decide)
    simp only [loadLE, pow_succ]
    omega

theorem readU64_lt (mem : Memory) (a : Nat) : readU64 mem a < 2 ^ 64 := by
  have h := loadLE_lt mem 8 a
  simpa [readU64] using h

theorem processLoop_succ (L : Libc) (tbl : HashMap) (mem : Memory) (size fuel : Nat)
    (d : Decoder) (h : d.total_read < size) :
    processLoop L tbl mem size (fuel + 1) d =
      match decodeRecord L tbl mem d with
      | (d1, some e) => (d1, e)
      | (d1, none) => processLoop L tbl mem size fuel d1 := by
  simp [processLoop, h]

theorem processLoop_done (L : Libc) (tbl : HashMap) (mem : Memory) (size fuel : Nat)
    (d : Decoder) (h : ¬ d.total_read < size) :
    processLoop L tbl mem size (fuel + 1) d = (d, .sizeReached) := by
  simp [processLoop, h]

theorem decodeRecord_sentinel (L : Libc) (tbl : HashMap) (mem : Memory) (d : Decoder)
    (h : readU64 mem d.ptr = 0) :
    decodeRecord L tbl mem d =
      ({ d with reads := d.reads ++ [(d.ptr, 8), (d.ptr + 8, 8)] }, some .sentinel) := by
  simp [decodeRecord, h]

theorem decodeRecord_ok (L : Libc) (tbl : HashMap) (mem : Memory) (d : Decoder)
    (format : List Char) (st : Locals)
    (h0 : readU64 mem d.ptr ≠ 0) (ht : tbl (readU64 mem d.ptr) = some format)
    (hf : formatRecord L tbl mem d.ptr format = .ok st) (hd : st.dst < BufferSize) :
    decodeRecord L tbl mem d =
      ({ ptr := d.ptr + nextArgs (readU64 mem (d.ptr + 8)),
         total_read := (d.total_read + nextArgs (readU64 mem (d.ptr + 8))) % 2 ^ 64,
         lines := d.lines ++ [st.buffer],
         reads := d.reads ++ [(d.ptr, 8), (d.ptr + 8, 8)] ++ st.reads }, none) := by
  simp [decodeRecord, h0, resolve, ht, hf, hd]

theorem decodeRecord_continues (L : Libc) (tbl : HashMap) (mem : Memory) (d d1 : Decoder)
    (h : decodeRecord L tbl mem d = (d1, none)) :
    ∃ format st, readU64 mem d.ptr ≠ 0 ∧ tbl (readU64 mem d.ptr) = some format ∧
      formatRecord L tbl mem d.ptr format = .ok st ∧ st.dst < BufferSize ∧
      d1 = { ptr := d.ptr + nextArgs (readU64 mem (d.ptr + 8)),
             total_read := (d.total_read + nextArgs (readU64 mem (d.ptr + 8))) % 2 ^ 64,
             lines := d.lines ++ [st.buffer],
             reads := d.reads ++ [(d.ptr, 8), (d.ptr + 8, 8)] ++ st.reads } := by
  unfold decodeRecord at h
  by_cases h0 : readU64 mem d.ptr = 0
  · simp [h0] at h
  · cases ht : tbl (readU64 mem d.ptr) with
    | none => simp [h0, resolve, ht] at h
    | some format =>
      cases hf : formatRecord L tbl mem d.ptr format with
      | error f => simp [h0, resolve, ht, hf] at h
      | ok st =>
        by_cases hd : st.dst < BufferSize
        · simp [h0, resolve, ht, hf, hd] at h
          exact ⟨format, st, h0, rfl, hf, hd, by rw [← h]; simp⟩
        · simp [h0, resolve, ht, hf, hd] at h

/-! ## The decode example -/

theorem formatRecord_example (tbl : HashMap) (mem : Memory)
    (h16 : readInt mem 16 = 42) (h24 : readU64 mem 24 = 0x400C000000000000) :
    formatRecord stdc tbl mem 0 exampleFormat =
      .ok { src := 32, dst := 16, buffer := "x=42 y=3.500000\n".toList,
            reads := [(16, 4), (24, 8)] } := by
  have hd : stdc.snprintfInt ['%', 'd'] 42 = some ['4', '2'] := by decide
  have hf : stdc.snprintfDouble ['%', 'f'] 0x400C000000000000
      = some ['3', '.', '5', '0', '0', '0', '0', '0'] := by decide
  have ha : alignDouble 20 = 24 := by decide
  simp [formatRecord, exampleFormat, formatLoop, putChar, putFormatted, BufferSize, h16, h24,
    hd, hf, ha]

/-- C1 (amended): with a non-zero hash `H` registered for `"x=%d y=%f\n"` and a buffer
holding the record `{H, args_size = 16, args = [int 42, 4 padding bytes, double 3.5]}`
followed by a zero format hash, `processPrintfBuffer` prints exactly one line, which
is `"x=42 y=3.500000\n"` (the text `%f` gives for 3.5), and has consumed exactly
`8 + 8 + 16 = 32` bytes when it leaves the loop at the terminator. -/
theorem decode_example (tbl : HashMap) (mem : Memory) (H size fuel : Nat)
    (hH : H ≠ 0) (hreg : tbl H = some exampleFormat)
    (h0 : readU64 mem 0 = H) (h8 : readU64 mem 8 = 16) (h16 : readInt mem 16 = 42)
    (h24 : readU64 mem 24 = 0x400C000000000000) (h32 : readU64 mem 32 = 0)
    (hsize : 32 < size) :
    (processPrintfBuffer stdc tbl mem size (fuel + 2)).2 = Exit.sentinel ∧
    (processPrintfBuffer stdc tbl mem size (fuel + 2)).1.lines = ["x=42 y=3.500000\n".toList] ∧
    (processPrintfBuffer stdc tbl mem size (fuel + 2)).1.total_read = 8 + 8 + 16 ∧
    (processPrintfBuffer stdc tbl mem size (fuel + 2)).1.ptr = 8 + 8 + 16 := by
  have hs0 : Decoder.start.total_read < size := by simp [Decoder.start]; omega
  have h1 := decodeRecord_ok stdc tbl mem Decoder.start exampleFormat _
    (by simpa [Decoder.start, h0] using hH) (by simpa [Decoder.start, h0] using hreg)
    (by simpa [Decoder.start] using formatRecord_example tbl mem h16 h24) (by decide)
  simp only [Decoder.start, Nat.zero_add, h8, List.nil_append] at h1
  have hn : nextArgs 16 = 32 := by decide
  rw [hn] at h1
  have hstep : processPrintfBuffer stdc tbl mem size (fuel + 2)
      = processLoop stdc tbl mem size (fuel + 1)
          { ptr := 32, total_read := 32, lines := ["x=42 y=3.500000\n".toList],
            reads := [(0, 8), (8, 8)] ++ [(16, 4), (24, 8)] } := by
    rw [processPrintfBuffer, processLoop_succ _ _ _ _ _ _ hs0]
    simp only [Decoder.start, h1]
    rfl
  rw [hstep, processLoop_succ _ _ _ _ _ _ (by simpa using hsize),
    decodeRecord_sentinel _ _ _ _ (by simpa using h32)]
  simp

/-- C1 (witness): the amended statement at hash `0x1234` and a 40 byte buffer. -/
theorem decode_example_witness :
    (processPrintfBuffer stdc exampleTable (ofBytes exampleBytes) 40 2).2 = Exit.sentinel ∧
    (processPrintfBuffer stdc exampleTable (ofBytes exampleBytes) 40 2).1.lines
      = ["x=42 y=3.500000\n".toList] ∧
    (processPrintfBuffer stdc exampleTable (ofBytes exampleBytes) 40 2).1.total_read = 8 + 8 + 16 ∧
    (processPrintfBuffer stdc exampleTable (ofBytes exampleBytes) 40 2).1.ptr = 8 + 8 + 16 :=
  decode_example exampleTable (ofBytes exampleBytes) 0x1234 40 0 (by decide) (by decide)
    (by decide) (by decide) (by decide) (by decide) (by decide) (by decide)

/-- C1 (as stated, refuted): for the record `{0x1234, 16, [42, pad, 3.5]}` with
`0x1234` registered for `"x=%d y=%f\n"`, the one line `processPrintfBuffer` prints
is `"x=42 y=3.500000\n"`, not `"x=42 y=3.5\n"`. -/
theorem decode_example_line_differs :
    (processPrintfBuffer stdc exampleTable (ofBytes exampleBytes) 40 2).2 = Exit.sentinel ∧
    (processPrintfBuffer stdc exampleTable (ofBytes exampleBytes) 40 2).1.lines
      ≠ ["x=42 y=3.5\n".toList] := by
  decide

/-! ## Cursor advance -/

/-- C2 (amended): when the loop body has decoded a record (non-zero format hash) and
goes on, the read cursor has advanced by `next_args`, the `uint64_t` sum
`(8 + 8 + args_size) mod 2 ^ 64`, both in `ptr` and in `total_read`; so the cursor is
`record_start + 8 + 8 + args_size` exactly whenever `8 + 8 + args_size < 2 ^ 64`. The
advance does not depend on the offset `src` the format loop of the record ended at. -/
theorem cursor_after_record (L : Libc) (tbl : HashMap) (mem : Memory) (d d1 : Decoder)
    (h : decodeRecord L tbl mem d = (d1, none)) :
    readU64 mem d.ptr ≠ 0 ∧
    d1.ptr = d.ptr + (8 + 8 + readU64 mem (d.ptr + 8)) % 2 ^ 64 ∧
    d1.total_read = (d.total_read + (8 + 8 + readU64 mem (d.ptr + 8)) % 2 ^ 64) % 2 ^ 64 ∧
    (8 + 8 + readU64 mem (d.ptr + 8) < 2 ^ 64 →
      d1.ptr = d.ptr + 8 + 8 + readU64 mem (d.ptr + 8)) ∧
    (d.total_read + 8 + 8 + readU64 mem (d.ptr + 8) < 2 ^ 64 →
      d1.total_read = d.total_read + 8 + 8 + readU64 mem (d.ptr + 8)) := by
  obtain ⟨format, st, h0, -, -, -, rfl⟩ := decodeRecord_continues L tbl mem d d1 h
  refine ⟨h0, ?_, ?_, ?_, ?_⟩
  · simp [nextArgs]
  · simp [nextArgs]
  · intro hlt
    simp only [nextArgs]
    rw [Nat.mod_eq_of_lt (by omega)]
    omega
  · intro hlt
    simp only [nextArgs]
    rw [Nat.mod_eq_of_lt (a := 16 + readU64 mem (d.ptr + 8)) (by omega),
      Nat.mod_eq_of_lt (by omega)]
    omega

/-- C2 (witness): a record with `args_size = 8` whose format `"a"` consumes no argument
byte; the cursor moves from 0 to `8 + 8 + 8`. -/
theorem cursor_after_record_witness :
    decodeRecord stdc tableA (ofBytes paddedBytes) Decoder.start
      = ({ ptr := 24, total_read := 24, lines := [['a']], reads := [(0, 8), (8, 8)] }, none) ∧
    (readU64 (ofBytes paddedBytes) 0 ≠ 0 ∧
     24 = 0 + (8 + 8 + readU64 (ofBytes paddedBytes) (0 + 8)) % 2 ^ 64 ∧
     24 = (0 + (8 + 8 + readU64 (ofBytes paddedBytes) (0 + 8)) % 2 ^ 64) % 2 ^ 64 ∧
     (8 + 8 + readU64 (ofBytes paddedBytes) (0 + 8) < 2 ^ 64 →
       24 = 0 + 8 + 8 + readU64 (ofBytes paddedBytes) (0 + 8)) ∧
     (0 + 8 + 8 + readU64 (ofBytes paddedBytes) (0 + 8) < 2 ^ 64 →
       24 = 0 + 8 + 8 + readU64 (ofBytes paddedBytes) (0 + 8))) :=
  ⟨by decide,
   cursor_after_record stdc tableA (ofBytes paddedBytes) Decoder.start
      { ptr := 24, total_read := 24, lines := [['a']], reads := [(0, 8), (8, 8)] }
      (by decide)⟩

/-- C2 (as stated, refuted): the record with format hash 7 and `args_size = 2 ^ 64 - 16`
at offset 0 is decoded and the loop goes on, but the cursor afterwards is 0, not
`0 + 8 + 8 + args_size`. -/
theorem cursor_wraps :
    readU64 (ofBytes wrapBytes) 0 ≠ 0 ∧
    (decodeRecord stdc tableA (ofBytes wrapBytes) Decoder.start).2 = none ∧
    (decodeRecord stdc tableA (ofBytes wrapBytes) Decoder.start).1.ptr = 0 ∧
    (decodeRecord stdc tableA (ofBytes wrapBytes) Decoder.start).1.ptr
      ≠ 0 + 8 + 8 + readU64 (ofBytes wrapBytes) 8 := by
  decide

/-! ## One line per record -/

theorem readU64_eq_zero (mem : Memory) (a : Nat) (h : ∀ k, k < 8 → byteAt mem (a + k) = 0) :
    readU64 mem a = 0 := by
  have h0 := h 0 (by omega)
  have h1 := h 1 (by omega)
  have h2 := h 2 (by omega)
  have h3 := h 3 (by omega)
  have h4 := h 4 (by omega)
  have h5 := h 5 (by omega)
  have h6 := h 6 (by omega)
  have h7 := h 7 (by omega)
  simp only [Nat.add_zero] at h0
  simp [readU64, loadLE, Nat.add_assoc, h0, h1, h2, h3, h4, h5, h6, h7]

/-- C4: for every buffer whose first 8 bytes are zero and every `buffer_size`,
`processPrintfBuffer` prints no line and consumes no byte (`total_read` and `ptr`
stay 0); it leaves its loop at the zero hash, or at once when `buffer_size` is 0. -/
theorem zero_hash_first (L : Libc) (tbl : HashMap) (mem : Memory) (size fuel : Nat)
    (h : ∀ k, k < 8 → byteAt mem k = 0) :
    (processPrintfBuffer L tbl mem size (fuel + 1)).1.lines = [] ∧
    (processPrintfBuffer L tbl mem size (fuel + 1)).1.total_read = 0 ∧
    (processPrintfBuffer L tbl mem size (fuel + 1)).1.ptr = 0 ∧
    ((processPrintfBuffer L tbl mem size (fuel + 1)).2 = Exit.sentinel ∨
     (processPrintfBuffer L tbl mem size (fuel + 1)).2 = Exit.sizeReached ∧ size = 0) := by
  have hz : readU64 mem Decoder.start.ptr = 0 :=
    readU64_eq_zero mem 0 (by intro k hk; simpa using h k hk)
  by_cases hs : Decoder.start.total_read < size
  · rw [processPrintfBuffer, processLoop_succ _ _ _ _ _ _ hs, decodeRecord_sentinel _ _ _ _ hz]
    simp [Decoder.start]
  · rw [processPrintfBuffer, processLoop_done _ _ _ _ _ _ hs]
    simp [Decoder.start] at hs ⊢
    exact hs

/-- C4 (witness): a buffer of eight zero bytes followed by other bytes, with size 64. -/
theorem zero_hash_first_witness :
    (∀ k, k < 8 → byteAt (ofBytes [0, 0, 0, 0, 0, 0, 0, 0, 9, 9, 9]) k = 0) ∧
    ((processPrintfBuffer stdc tableA (ofBytes [0, 0, 0, 0, 0, 0, 0, 0, 9, 9, 9]) 64 1).1.lines
       = [] ∧
     (processPrintfBuffer stdc tableA (ofBytes [0, 0, 0, 0, 0, 0, 0, 0, 9, 9, 9]) 64 1).1.total_read
       = 0 ∧
     (processPrintfBuffer stdc tableA (ofBytes [0, 0, 0, 0, 0, 0, 0, 0, 9, 9, 9]) 64 1).1.ptr = 0 ∧
     ((processPrintfBuffer stdc tableA (ofBytes [0, 0, 0, 0, 0, 0, 0, 0, 9, 9, 9]) 64 1).2
        = Exit.sentinel ∨
      (processPrintfBuffer stdc tableA (ofBytes [0, 0, 0, 0, 0, 0, 0, 0, 9, 9, 9]) 64 1).2
        = Exit.sizeReached ∧ 64 = 0)) :=
  ⟨by decide, zero_hash_first stdc tableA _ 64 0 (by decide)⟩

/-! ## Unknown hashes -/

theorem resolve_error (tbl : HashMap) (x : Nat) (f : Fault) (h : resolve tbl x = .error f) :
    f = .unknownHash x ∧ tbl x = none := by
  unfold resolve at h
  cases ht : tbl x with
  | none => simp [ht] at h; exact ⟨h.symm, rfl⟩
  | some text => simp [ht] at h

theorem putChar_error (st : Locals) (c : Char) (f : Fault) (h : putChar st c = .error f) :
    f = .lineOverflow := by
  unfold putChar at h
  split at h
  · simp at h
  · simp at h; exact h.symm

theorem putFormatted_error (st : Locals) (fs : List Char) (out : Option (List Char)) (f : Fault)
    (h : putFormatted st fs out = .error f) :
    f = .lineOverflow ∨ f = .undefinedConversion fs := by
  unfold putFormatted at h
  cases out with
  | none => simp at h; exact Or.inr h.symm
  | some text =>
    simp only at h
    split at h
    · simp at h; exact Or.inl h.symm
    · simp at h

theorem formatLoop_unknownHash (L : Libc) (tbl : HashMap) (mem : Memory) (ptr x : Nat)
    (format : List Char) :
    ∀ (mode : Option (List Char)) (st : Locals),
      formatLoop L tbl mem ptr format mode st = .error (.unknownHash x) → tbl x = none := by
  induction format with
  | nil => intro mode st h; cases mode <;> simp [formatLoop] at h
  | cons c rest ih =>
    intro mode st h
    cases mode with
    | none =>
      simp only [formatLoop] at h
      split at h
      · exact ih _ _ h
      · split at h
        · rename_i f hp
          have := putChar_error _ _ _ hp
          simp only [Except.error.injEq] at h
          rw [h] at this
          cases this
        · exact ih _ _ h
    | some fs =>
      simp only [formatLoop] at h
      split at h
      · split at h
        · rename_i f hp
          simp only [Except.error.injEq] at h
          rw [h] at hp
          rcases putFormatted_error _ _ _ _ hp with h1 | h1 <;> cases h1
        · exact ih _ _ h
      · split at h
        · split at h
          · rename_i f hp
            simp only [Except.error.injEq] at h
            rw [h] at hp
            rcases putFormatted_error _ _ _ _ hp with h1 | h1 <;> cases h1
          · exact ih _ _ h
        · split at h
          · split at h
            · rename_i f hp
              simp only [Except.error.injEq] at h
              rw [h] at hp
              rcases putFormatted_error _ _ _ _ hp with h1 | h1 <;> cases h1
            · exact ih _ _ h
          · split at h
            · split at h
              · rename_i f hr
                simp only [Except.error.injEq] at h
                rw [h] at hr
                have := resolve_error _ _ _ hr
                have hx := this.1
                simp only [Fault.unknownHash.injEq] at hx
                rw [hx]
                exact this.2
              · split at h
                · rename_i f hp
                  simp only [Except.error.injEq] at h
                  rw [h] at hp
                  rcases putFormatted_error _ _ _ _ hp with h1 | h1 <;> cases h1
                · exact ih _ _ h
            · exact ih _ _ h

theorem decodeRecord_unknownHash (L : Libc) (tbl : HashMap) (mem : Memory) (d d1 : Decoder)
    (x : Nat) (h : decodeRecord L tbl mem d = (d1, some (.fault (.unknownHash x)))) :
    tbl x = none := by
  unfold decodeRecord at h
  by_cases h0 : readU64 mem d.ptr = 0
  · simp [h0] at h
  · cases ht : tbl (readU64 mem d.ptr) with
    | none =>
      simp [h0, resolve, ht] at h
      rw [← h.2]; exact ht
    | some format =>
      cases hf : formatRecord L tbl mem d.ptr format with
      | error f =>
        simp [h0, resolve, ht, hf] at h
        rw [h.2] at hf
        exact formatLoop_unknownHash L tbl mem _ x format _ _ hf
      | ok st =>
        by_cases hd : st.dst < BufferSize
        · simp [h0, resolve, ht, hf, hd] at h
        · simp [h0, resolve, ht, hf, hd] at h

theorem processLoop_unknownHash (L : Libc) (tbl : HashMap) (mem : Memory) (size x : Nat) :
    ∀ (fuel : Nat) (d d1 : Decoder),
      processLoop L tbl mem size fuel d = (d1, .fault (.unknownHash x)) → tbl x = none := by
  intro fuel
  induction fuel with
  | zero => intro d d1 h; simp [processLoop] at h
  | succ fuel ih =>
    intro d d1 h
    by_cases hs : d.total_read < size
    · rw [processLoop_succ _ _ _ _ _ _ hs] at h
      split at h
      · rename_i d2 e he
        simp only [Prod.mk.injEq] at h
        rw [h.1, h.2] at he
        exact decodeRecord_unknownHash L tbl mem d d1 x he
      · exact ih _ _ h
    · rw [processLoop_done _ _ _ _ _ _ hs] at h
      simp at h

/-- C5: if the record the loop of `processPrintfBuffer` has reached has a non-zero format
hash that is absent from `m_hash_map`, decoding stops there with the fatal assertion
failure `unknownHash` and the printed lines are those printed before that record;
conversely, whenever decoding stops with `unknownHash x`, the hash `x` is absent from
the table, so no such failure occurs while the hashes looked up are registered. -/
theorem unknown_hash_fatal (L : Libc) (tbl : HashMap) (mem : Memory) (size : Nat) :
    (∀ (fuel : Nat) (d : Decoder), d.total_read < size → readU64 mem d.ptr ≠ 0 →
        tbl (readU64 mem d.ptr) = none →
        (processLoop L tbl mem size (fuel + 1) d).2
            = Exit.fault (.unknownHash (readU64 mem d.ptr)) ∧
        (processLoop L tbl mem size (fuel + 1) d).1.lines = d.lines) ∧
    (∀ (fuel x : Nat), (processPrintfBuffer L tbl mem size fuel).2 = Exit.fault (.unknownHash x) →
        tbl x = none) := by
  constructor
  · intro fuel d hs h0 ht
    rw [processLoop_succ _ _ _ _ _ _ hs]
    simp [decodeRecord, h0, resolve, ht]
  · intro fuel x h
    exact processLoop_unknownHash L tbl mem size x fuel Decoder.start
      (processPrintfBuffer L tbl mem size fuel).1 (by rw [← h]; rfl)

/-- C5 (witness): a record with format hash 5, which `tableA` does not register. -/
theorem unknown_hash_fatal_witness :
    (processLoop stdc tableA (ofBytes (bytesLE 5 8)) 16 (0 + 1) Decoder.start).2
        = Exit.fault (.unknownHash (readU64 (ofBytes (bytesLE 5 8)) Decoder.start.ptr)) ∧
    (processLoop stdc tableA (ofBytes (bytesLE 5 8)) 16 (0 + 1) Decoder.start).1.lines
        = Decoder.start.lines :=
  (unknown_hash_fatal stdc tableA (ofBytes (bytesLE 5 8)) 16).1 0 Decoder.start
    (by decide) (by decide) (by decide)

/-! ## Termination -/

theorem decodeRecord_stops (L : Libc) (tbl : HashMap) (mem : Memory) (d d1 : Decoder)
    (e : Exit) (h : decodeRecord L tbl mem d = (d1, some e)) :
    (e = .sentinel ∧ readU64 mem d.ptr = 0 ∧ d1.ptr = d.ptr ∧ d1.total_read = d.total_read) ∨
    (∃ f, e = .fault f) := by
  unfold decodeRecord at h
  by_cases h0 : readU64 mem d.ptr = 0
  · simp [h0] at h
    left
    refine ⟨h.2.symm, h0, ?_, ?_⟩ <;> rw [← h.1]
  · right
    cases ht : tbl (readU64 mem d.ptr) with
    | none =>
      simp [h0, resolve, ht] at h
      exact ⟨_, h.2.symm⟩
    | some format =>
      cases hf : formatRecord L tbl mem d.ptr format with
      | error f =>
        simp [h0, resolve, ht, hf] at h
        exact ⟨_, h.2.symm⟩
      | ok st =>
        by_cases hd : st.dst < BufferSize
        · simp [h0, resolve, ht, hf, hd] at h
        · simp [h0, resolve, ht, hf, hd] at h
          exact ⟨_, h.2.symm⟩

theorem processLoop_terminates (L : Libc) (tbl : HashMap) (mem : Memory) (size : Nat)
    (hfit : ∀ k, (∀ i, i ≤ k → recordStart mem i < size ∧ readU64 mem (recordStart mem i) ≠ 0) →
      recordStart mem k + 8 + 8 + readU64 mem (recordStart mem k + 8) < 2 ^ 64) :
    ∀ (k : Nat) (d : Decoder) (n : Nat), d.ptr = recordStart mem n →
      d.total_read = recordStart mem n →
      (∀ i, i < n → recordStart mem i < size ∧ readU64 mem (recordStart mem i) ≠ 0) →
      size - d.total_read ≤ k →
      ∀ fuel, k + 1 ≤ fuel →
        processLoop L tbl mem size fuel d = processLoop L tbl mem size (k + 1) d ∧
        (processLoop L tbl mem size (k + 1) d).2 ≠ Exit.outOfFuel ∧
        ((processLoop L tbl mem size (k + 1) d).2 = Exit.sentinel →
          readU64 mem (processLoop L tbl mem size (k + 1) d).1.ptr = 0 ∧
          (processLoop L tbl mem size (k + 1) d).1.total_read < size) ∧
        ((processLoop L tbl mem size (k + 1) d).2 = Exit.sizeReached →
          size ≤ (processLoop L tbl mem size (k + 1) d).1.total_read) := by
  intro k
  induction k with
  | zero =>
    intro d n _ _ _ hk fuel hfuel
    obtain ⟨fuel, rfl⟩ : ∃ m, fuel = m + 1 := ⟨fuel - 1, by omega⟩
    have hs : ¬ d.total_read < size := by omega
    rw [processLoop_done _ _ _ _ _ _ hs, processLoop_done _ _ _ _ _ _ hs]
    refine ⟨rfl, by simp, by simp, ?_⟩
    intro _
    simp only
    omega
  | succ k ih =>
    intro d n hp ht hprev hk fuel hfuel
    obtain ⟨fuel, rfl⟩ : ∃ m, fuel = m + 1 := ⟨fuel - 1, by omega⟩
    by_cases hs : d.total_read < size
    · rw [processLoop_succ _ _ _ _ _ _ hs, processLoop_succ _ _ _ _ (k + 1) _ hs]
      cases hdr : decodeRecord L tbl mem d with
      | mk d1 oe =>
        cases oe with
        | some e =>
          simp only
          rcases decodeRecord_stops L tbl mem d d1 e hdr with ⟨he, hz, hptr, htr⟩ | ⟨f, he⟩
          · subst he
            refine ⟨trivial, by simp, ?_, by simp⟩
            intro _
            rw [hptr, htr]
            exact ⟨hz, hs⟩
          · subst he
            exact ⟨trivial, by simp, by simp, by simp⟩
        | none =>
          simp only
          obtain ⟨format, st, h0, -, -, -, hd1⟩ := decodeRecord_continues L tbl mem d d1 hdr
          have hpre : ∀ i, i ≤ n →
              recordStart mem i < size ∧ readU64 mem (recordStart mem i) ≠ 0 := by
            intro i hi
            by_cases hin : i < n
            · exact hprev i hin
            · have hieq : i = n := by omega
              rw [hieq, ← ht]
              refine ⟨hs, ?_⟩
              rw [ht, ← hp]
              exact h0
          have hf := hfit n hpre
          rw [← hp] at hf
          have hna : nextArgs (readU64 mem (d.ptr + 8)) = 16 + readU64 mem (d.ptr + 8) := by
            simp only [nextArgs]
            exact Nat.mod_eq_of_lt (by omega)
          have hnext : recordStart mem (n + 1) = d.ptr + (16 + readU64 mem (d.ptr + 8)) := by
            rw [recordStart, ← hp, hna]
          have hptr : d1.ptr = recordStart mem (n + 1) := by
            rw [hnext, hd1]
            simp only [hna]
          have htr : d1.total_read = recordStart mem (n + 1) := by
            rw [hnext, hd1]
            simp only [hna]
            rw [Nat.mod_eq_of_lt (by omega)]
            omega
          exact ih d1 (n + 1) hptr htr (fun i hi => hpre i (by omega))
            (by rw [htr, hnext]; omega) fuel (by omega)
    · rw [processLoop_done _ _ _ _ _ _ hs, processLoop_done _ _ _ _ _ _ hs]
      refine ⟨rfl, by simp, by simp, ?_⟩
      intro _
      simp only
      omega

/-- C6 (amended): for every buffer, size and string table in which every record header
below `size` declares a record that ends below `2 ^ 64`
(`record_start + 8 + 8 + args_size < 2 ^ 64`), the record loop of `processPrintfBuffer`
terminates: `size + 1` iterations are enough and more change nothing. The record
headers are those at the offsets `recordStart mem k` up to the first one that lies at
or past `size` or holds a zero format hash; the bytes in between are not constrained.
The loop stops at the first record whose format hash is zero, or once `total_read`
has reached `size`, or at a fault; a fault `unknownHash x` only occurs for a hash `x`
that does not resolve. -/
theorem decoding_terminates (L : Libc) (tbl : HashMap) (mem : Memory) (size : Nat)
    (hfit : ∀ k, (∀ i, i ≤ k → recordStart mem i < size ∧ readU64 mem (recordStart mem i) ≠ 0) →
      recordStart mem k + 8 + 8 + readU64 mem (recordStart mem k + 8) < 2 ^ 64) :
    (∀ fuel, size + 1 ≤ fuel →
      processPrintfBuffer L tbl mem size fuel = processPrintfBuffer L tbl mem size (size + 1)) ∧
    (processPrintfBuffer L tbl mem size (size + 1)).2 ≠ Exit.outOfFuel ∧
    ((processPrintfBuffer L tbl mem size (size + 1)).2 = Exit.sentinel →
      readU64 mem (processPrintfBuffer L tbl mem size (size + 1)).1.ptr = 0 ∧
      (processPrintfBuffer L tbl mem size (size + 1)).1.total_read < size) ∧
    ((processPrintfBuffer L tbl mem size (size + 1)).2 = Exit.sizeReached →
      size ≤ (processPrintfBuffer L tbl mem size (size + 1)).1.total_read) ∧
    (∀ x, (processPrintfBuffer L tbl mem size (size + 1)).2 = Exit.fault (.unknownHash x) →
      tbl x = none) := by
  have key := processLoop_terminates L tbl mem size hfit size Decoder.start 0 rfl rfl
    (fun i hi => absurd hi (Nat.not_lt_zero i)) (by simp [Decoder.start])
  have k0 := key (size + 1) (le_refl _)
  refine ⟨fun fuel hfuel => (key fuel hfuel).1, k0.2.1, k0.2.2.1, k0.2.2.2, ?_⟩
  intro x hx
  exact processLoop_unknownHash L tbl mem size x (size + 1) Decoder.start
    (processPrintfBuffer L tbl mem size (size + 1)).1 (by rw [← hx]; rfl)

/-- C6 (witness): the 32 byte buffer of `signedBytes`, whose one record carries the
argument bytes `0xFF`; its headers are at the offsets 0 and 24, the second one holding
the zero format hash, and decoding ends there after the one line `"a"`. -/
theorem decoding_terminates_witness :
    (∀ k, (∀ i, i ≤ k → recordStart (ofBytes signedBytes) i < 32 ∧
        readU64 (ofBytes signedBytes) (recordStart (ofBytes signedBytes) i) ≠ 0) →
      recordStart (ofBytes signedBytes) k + 8 + 8
        + readU64 (ofBytes signedBytes) (recordStart (ofBytes signedBytes) k + 8) < 2 ^ 64) ∧
    ¬ (8 + 8 + 8 + readU64 (ofBytes signedBytes) (8 + 8) < 2 ^ 64) ∧
    processPrintfBuffer stdc tableA (ofBytes signedBytes) 32 (32 + 1)
      = ({ ptr := 24, total_read := 24, lines := [['a']],
           reads := [(0, 8), (8, 8), (24, 8), (32, 8)] }, Exit.sentinel) ∧
    (processPrintfBuffer stdc tableA (ofBytes signedBytes) 32 (32 + 1)).2 ≠ Exit.outOfFuel :=
  ⟨fun k hk => by
      cases k with
      | zero => decide
      | succ k => exact absurd (hk 1 (by omega)).2 (by decide),
   by decide, by decide,
   (decoding_terminates stdc tableA (ofBytes signedBytes) 32 (fun k hk => by
      cases k with
      | zero => decide
      | succ k => exact absurd (hk 1 (by omega)).2 (by decide))).2.1⟩

theorem processLoop_wrap (fuel : Nat) :
    ∀ d : Decoder, d.ptr = 0 → d.total_read = 0 →
      (processLoop stdc tableA (ofBytes wrapBytes) 16 fuel d).2 = Exit.outOfFuel ∧
      (processLoop stdc tableA (ofBytes wrapBytes) 16 fuel d).1.lines
        = d.lines ++ List.replicate fuel ['a'] := by
  induction fuel with
  | zero => intro d _ _; simp [processLoop]
  | succ fuel ih =>
    intro d hp ht
    have hdec := decodeRecord_ok stdc tableA (ofBytes wrapBytes) d ['a']
      { src := 16, dst := 1, buffer := ['a'], reads := [] }
      (by rw [hp]; decide) (by rw [hp]; decide) (by rw [hp]; rfl) (by decide)
    have hna : nextArgs (readU64 (ofBytes wrapBytes) (d.ptr + 8)) = 0 := by rw [hp]; decide
    rw [hna] at hdec
    rw [processLoop_succ _ _ _ _ _ _ (by omega), hdec]
    simp only
    have key := ih { ptr := d.ptr + 0, total_read := (d.total_read + 0) % 2 ^ 64,
                     lines := d.lines ++ [['a']],
                     reads := d.reads ++ [(d.ptr, 8), (d.ptr + 8, 8)] ++ [] }
      (by simpa using hp) (by simp [ht])
    rw [key.1, key.2]
    simp [List.replicate_succ]

/-- C6 (as stated, refuted): the 16 byte buffer that holds one record with the
registered format hash 7 (format `"a"`) and `args_size = 2 ^ 64 - 16` makes
`next_args` zero, so the cursor never moves: whatever the number of iterations, the
loop of `processPrintfBuffer` is still running and has printed one `"a"` for each. -/
theorem decoding_loops_forever :
    tableA (readU64 (ofBytes wrapBytes) 0) = some ['a'] ∧
    readU64 (ofBytes wrapBytes) 8 = 2 ^ 64 - 16 ∧
    ∀ fuel, (processPrintfBuffer stdc tableA (ofBytes wrapBytes) 16 fuel).2 = Exit.outOfFuel ∧
      (processPrintfBuffer stdc tableA (ofBytes wrapBytes) 16 fuel).1.lines
        = List.replicate fuel ['a'] := by
  refine ⟨by decide, by decide, ?_⟩
  intro fuel
  have key := processLoop_wrap fuel Decoder.start rfl rfl
  exact ⟨key.1, by rw [processPrintfBuffer, key.2]; simp [Decoder.start]⟩

/-! ## Loads and the buffer size -/

/-- C7 (failing input): on the 24 byte buffer that holds the record `{7, args_size = 0}`
and a zero format hash in its last 8 bytes, `processPrintfBuffer` called with
`buffer_size = 24` prints `"a"`, then loads the 8 bytes at offset 24 (the `args_size`
field of the terminator) before it tests the hash, a load that lies wholly at
offsets not below `buffer_size`. -/
theorem load_past_buffer_size :
    tightBytes.length = 24 ∧
    processPrintfBuffer stdc tableA (ofBytes tightBytes) 24 2
      = ({ ptr := 16, total_read := 16, lines := [['a']],
           reads := [(0, 8), (8, 8), (16, 8), (24, 8)] }, Exit.sentinel) ∧
    ∃ r ∈ (processPrintfBuffer stdc tableA (ofBytes tightBytes) 24 2).1.reads, 24 ≤ r.1 := by
  decide

/-! ## Interning -/

/-- C8: for every string `s`, resolving the hash returned by registering `s` yields `s`,
and registering `s` a second time returns the same hash and leaves the table as the
first registration made it. -/
theorem interning_round_trip (hash : List Char → Nat) (tbl : HashMap) (s : List Char) :
    resolve (register_string hash tbl s).2 (register_string hash tbl s).1 = .ok s ∧
    (register_string hash (register_string hash tbl s).2 s).1 = (register_string hash tbl s).1 ∧
    (register_string hash (register_string hash tbl s).2 s).2 = (register_string hash tbl s).2 := by
  by_cases h : tbl (hash s) = some s
  · simp [register_string, h, resolve]
  · simp [register_string, h, resolve]

/-! ## The texture handle cache -/

theorem uploadCount_append_upload (ops : List DeviceOp) (w h a p ht : Nat) (px : List Nat) :
    uploadCount (ops ++ [.mallocArray w h, .memcpy2DToArray a px p ht, .createTextureObject a])
      = uploadCount ops + 1 := by
  simp [uploadCount, List.filter_append]

/-- C9 (amended): for every path `p`, when a call `get_texture_handle(p)` returns, the
next call `get_texture_handle(p)` returns the identical handle value and issues no
device operation. Across the two calls exactly one image upload (array allocation,
copy, texture-object creation) happens when `p` was not cached before and its image
opens; when `p` was cached before or its image cannot be opened, none happens. -/
theorem cache_idempotent (w : World) (r r1 : Renderer) (p : List Char) (h1 : Nat)
    (hcall : get_texture_handle w r p = .returned h1 r1) :
    ∃ r2, get_texture_handle w r1 p = .returned h1 r2 ∧ r2.device = r1.device ∧
      (r.m_samplers p = none → w.init_spec p ≠ none →
        uploadCount r2.device = uploadCount r.device + 1 ∧
        ∃ image pixels pixelArray pitch, w.init_spec p = some image ∧
          pitchBytes image.width = some pitch ∧
          r2.device = r.device ++
            [.mallocArray image.width image.height,
             .memcpy2DToArray pixelArray pixels pitch image.height,
             .createTextureObject pixelArray]) ∧
      (r.m_samplers p ≠ none ∨ w.init_spec p = none → r2.device = r.device) := by
  unfold get_texture_handle at hcall
  cases hm : r.m_samplers p with
  | some tex =>
    simp only [hm, Call.returned.injEq] at hcall
    obtain ⟨rfl, rfl⟩ := hcall
    refine ⟨r, by simp [get_texture_handle, hm], rfl, by simp, by simp⟩
  | none =>
    cases hi : w.init_spec p with
    | none =>
      simp only [hm, hi, Call.returned.injEq] at hcall
      obtain ⟨rfl, rfl⟩ := hcall
      refine ⟨{ r with errors := r.errors ++ ["Could not load: ".toList ++ p]
                                      ++ ["Could not load: ".toList ++ p] },
        by simp only [get_texture_handle, hm, hi], rfl, by simp [hi], by simp⟩
    | some image =>
      simp only [hm, hi] at hcall
      cases hfill : fillPixels image with
      | none => simp [hfill] at hcall
      | some pixels =>
        simp only [hfill] at hcall
        cases hpitch : pitchBytes image.width with
        | none => simp [hpitch] at hcall
        | some pitch =>
          simp only [hpitch] at hcall
          cases hc1 : w.cuda r.device (.mallocArray image.width image.height) with
          | none => simp [hc1] at hcall
          | some pixelArray =>
            simp only [hc1] at hcall
            cases hc2 : w.cuda (r.device ++ [.mallocArray image.width image.height])
                (.memcpy2DToArray pixelArray pixels pitch image.height) with
            | none => simp [hc2] at hcall
            | some v =>
              simp only [hc2] at hcall
              cases hc3 : w.cuda (r.device ++ [.mallocArray image.width image.height,
                  .memcpy2DToArray pixelArray pixels pitch image.height])
                  (.createTextureObject pixelArray) with
              | none => simp [hc3] at hcall
              | some cuda_tex =>
                simp only [hc3, Call.returned.injEq] at hcall
                obtain ⟨rfl, rfl⟩ := hcall
                refine ⟨_, by simp [get_texture_handle], rfl, ?_, by simp⟩
                intro _ _
                exact ⟨uploadCount_append_upload _ _ _ _ _ _ _, image, pixels, pixelArray,
                  pitch, rfl, hpitch, rfl⟩

/-- C9 (witness): in `smallWorld` the first request for `"a.exr"` uploads the image and
returns the handle 3; the second returns 3 again. -/
theorem cache_idempotent_witness :
    get_texture_handle smallWorld Renderer.fresh pixelPath = .returned 3 afterUpload ∧
    ∃ r2, get_texture_handle smallWorld afterUpload pixelPath = .returned 3 r2 ∧
      r2.device = afterUpload.device ∧
      (Renderer.fresh.m_samplers pixelPath = none → smallWorld.init_spec pixelPath ≠ none →
        uploadCount r2.device = uploadCount Renderer.fresh.device + 1 ∧
        ∃ image pixels pixelArray pitch, smallWorld.init_spec pixelPath = some image ∧
          pitchBytes image.width = some pitch ∧
          r2.device = Renderer.fresh.device ++
            [.mallocArray image.width image.height,
             .memcpy2DToArray pixelArray pixels pitch image.height,
             .createTextureObject pixelArray]) ∧
      (Renderer.fresh.m_samplers pixelPath ≠ none ∨ smallWorld.init_spec pixelPath = none →
        r2.device = Renderer.fresh.device) :=
  ⟨rfl, cache_idempotent smallWorld Renderer.fresh afterUpload pixelPath 3 rfl⟩

/-- C9 (as stated, refuted): in a world where `"/does/not/exist.exr"` cannot be opened,
two successive calls of `get_texture_handle` for it both return normally with the
null handle, and no image upload happens across the two calls (not exactly one). -/
theorem no_upload_for_missing_image :
    ∃ r1 r2, get_texture_handle emptyWorld Renderer.fresh missingPath = .returned nullHandle r1 ∧
      get_texture_handle emptyWorld r1 missingPath = .returned nullHandle r2 ∧
      uploadCount r2.device = 0 ∧ r2.device = [] ∧
      uploadCount r2.device ≠ uploadCount Renderer.fresh.device + 1 :=
  ⟨_, _, rfl, rfl, rfl, rfl, by decide⟩

theorem Reachable.cached_opens (w : World) (r : Renderer) (hr : Reachable w r) :
    ∀ f, r.m_samplers f ≠ none → w.init_spec f ≠ none := by
  induction hr with
  | fresh => intro f hf; simp [Renderer.fresh] at hf
  | call r p h r1 _ hcall ih =>
    intro f hf
    unfold get_texture_handle at hcall
    cases hm : r.m_samplers p with
    | some tex =>
      simp only [hm, Call.returned.injEq] at hcall
      rw [← hcall.2] at hf
      exact ih f hf
    | none =>
      cases hi : w.init_spec p with
      | none =>
        simp only [hm, hi, Call.returned.injEq] at hcall
        rw [← hcall.2] at hf
        exact ih f hf
      | some image =>
        simp only [hm, hi] at hcall
        by_cases hfp : f = p
        · rw [hfp, hi]; simp
        · apply ih f
          intro hnone
          apply hf
          split at hcall
          · simp at hcall
          · split at hcall
            · simp at hcall
            · split at hcall
              · simp at hcall
              · split at hcall
                · simp at hcall
                · split at hcall
                  · simp at hcall
                  · simp only [Call.returned.injEq] at hcall
                    rw [← hcall.2]
                    simp [hfp, hnone]

/-- C10: in every renderer reached from a fresh one by calls of `get_texture_handle`, a
request for a path whose image cannot be opened returns normally (no `exit`), logs
one `"Could not load: <path>"` error, changes nothing else, and the handle it returns
is the null handle, for which `good` is false. -/
theorem missing_image_gives_null (w : World) (r : Renderer) (p : List Char)
    (hr : Reachable w r) (hopen : w.init_spec p = none) :
    get_texture_handle w r p
      = .returned nullHandle { r with errors := r.errors ++ ["Could not load: ".toList ++ p] } ∧
    good nullHandle = false := by
  have hm : r.m_samplers p = none := by
    by_contra hne
    exact Reachable.cached_opens w r hr p hne hopen
  refine ⟨?_, rfl⟩
  simp only [get_texture_handle, hm, hopen]

/-- C10 (witness): the request for `"/does/not/exist.exr"` on the renderer that has
uploaded `"a.exr"` in `smallWorld`. -/
theorem missing_image_gives_null_witness :
    Reachable smallWorld afterUpload ∧ smallWorld.init_spec missingPath = none ∧
    (get_texture_handle smallWorld afterUpload missingPath
      = .returned nullHandle
          { afterUpload with
            errors := afterUpload.errors ++ ["Could not load: ".toList ++ missingPath] } ∧
     good nullHandle = false) :=
  have hr : Reachable smallWorld afterUpload :=
    Reachable.call Renderer.fresh pixelPath 3 afterUpload Reachable.fresh rfl
  ⟨hr, rfl, missing_image_gives_null smallWorld afterUpload missingPath hr rfl⟩

/-! ## The validity predicate -/

/-- C11: `good(h)` is true exactly when `h` is not the null handle: it is false for the
null handle and true for every other handle value. -/
theorem good_iff_not_null (h : Nat) :
    (good h = true ↔ h ≠ nullHandle) ∧ good nullHandle = false := by
  simp [good]

/-! ## Checked library calls -/

theorem checked_ok (dev : Device) (script : List DriverCall) :
    ∀ (s s1 : Session), checked dev script s = .ok s1 →
      s1 = { s with calls := s.calls ++ script } := by
  induction script with
  | nil => intro s s1 h; simp [checked] at h; simp [← h]
  | cons c cs ih =>
    intro s s1 h
    simp only [checked] at h
    split at h
    · have := ih _ _ h
      rw [this]; simp
    · simp at h

theorem checked_error (dev : Device) (script : List DriverCall) :
    ∀ (s s1 : Session), checked dev script s = .error s1 →
      ∃ pre c post, script = pre ++ c :: post ∧
        s1 = { s with calls := s.calls ++ pre ++ [c] } ∧
        dev.succeeds (s.calls ++ pre) c = false := by
  induction script with
  | nil => intro s s1 h; simp [checked] at h
  | cons c cs ih =>
    intro s s1 h
    simp only [checked] at h
    split at h
    · obtain ⟨pre, c1, post, hs, hs1, hf⟩ := ih _ _ h
      refine ⟨c :: pre, c1, post, by simp [hs], ?_, ?_⟩
      · rw [hs1]; simp
      · simpa using hf
    · rename_i hc
      simp only [Except.error.injEq] at h
      exact ⟨[], c, cs, rfl, by simp [← h], by simpa using hc⟩

theorem checked_all_succeed (dev : Device) (script : List DriverCall) (s : Session)
    (h : ∀ hist c, dev.succeeds hist c = true) :
    checked dev script s = .ok { s with calls := s.calls ++ script } := by
  induction script generalizing s with
  | nil => simp [checked]
  | cons c cs ih => simp [checked, h, ih]

/-! ## clear and the destructor -/

/-- C20: when `clear()` returns, the shader list is empty and `m_optix_ctx` is null; a
device context that existed has been destroyed by exactly one
`optixDeviceContextDestroy` call, and none is made when there was no context. A
second `clear()` and the destructor run after it make no further call and leave the
session as the first `clear()` left it. -/
theorem clear_destroys_once (dev : Device) (s s1 : Session)
    (h : clear dev s = .returned () s1) :
    s1.shaders = [] ∧ s1.m_optix_ctx = 0 ∧
    (s.m_optix_ctx ≠ 0 → s1.calls = s.calls ++ [.optixDeviceContextDestroy s.m_optix_ctx]) ∧
    (s.m_optix_ctx = 0 → s1.calls = s.calls) ∧
    clear dev s1 = .returned () s1 ∧ destroy dev s1 = .returned () s1 := by
  unfold clear at h
  by_cases hc : s.m_optix_ctx = 0
  · simp only [hc, ne_eq, not_true_eq_false, ↓reduceIte, Ended.returned.injEq, true_and] at h
    subst h
    simp [clear, destroy, hc]
  · simp only [ne_eq, hc, not_false_eq_true, ↓reduceIte] at h
    cases hk : checked dev [.optixDeviceContextDestroy s.m_optix_ctx] { s with shaders := [] } with
    | error s2 => simp [hk] at h
    | ok s2 =>
      simp only [hk, Ended.returned.injEq, true_and] at h
      have h2 := checked_ok dev _ _ _ hk
      subst h
      subst h2
      simp [clear, destroy, hc]

/-- C20 (witness): `clear()` on a session with the device context 1. -/
theorem clear_destroys_once_witness :
    clear plainDevice (newSession [shaderA]) = .returned () clearedSession ∧
    (clearedSession.shaders = [] ∧ clearedSession.m_optix_ctx = 0 ∧
     ((newSession [shaderA]).m_optix_ctx ≠ 0 →
        clearedSession.calls = (newSession [shaderA]).calls
              ++ [.optixDeviceContextDestroy (newSession [shaderA]).m_optix_ctx]) ∧
     ((newSession [shaderA]).m_optix_ctx = 0 →
        clearedSession.calls = (newSession [shaderA]).calls) ∧
     clear plainDevice clearedSession = .returned () clearedSession ∧
     destroy plainDevice clearedSession = .returned () clearedSession) :=
  ⟨by decide, clear_destroys_once plainDevice (newSession [shaderA]) clearedSession (by decide)⟩

/-! ## render -/

theorem checked_cases (dev : Device) (script : List DriverCall) (s : Session) :
    checked dev script s = .ok { s with calls := s.calls ++ script } ∨
    ∃ new, checked dev script s = .error { s with calls := s.calls ++ new } ∧
      new <+: script ∧ new ≠ [] := by
  cases h : checked dev script s with
  | ok s1 => left; rw [checked_ok dev script s s1 h]
  | error s1 =>
    right
    obtain ⟨pre, c, post, hs, hs1, -⟩ := checked_error dev script s s1 h
    refine ⟨pre ++ [c], by rw [hs1]; simp, ?_, by simp⟩
    rw [hs]
    exact ⟨post, by simp⟩

theorem eq_singleton_of_initial {α : Type} (new : List α) (c : α) (hp : new <+: [c])
    (hn : new ≠ []) : new = [c] := by
  rcases hp with ⟨t, ht⟩
  cases new with
  | nil => exact absurd rfl hn
  | cons a l =>
    cases l with
    | nil => simp at ht; simp [ht.1]
    | cons b l => simp at ht

theorem processPrintfBuffer_split (L : Libc) (tbl : HashMap) (mem : Memory) (size fuel : Nat) :
    ∃ d e, processPrintfBuffer L tbl mem size fuel = (d, e) := ⟨_, _, rfl⟩

/-- C14: the library calls of every call `render(w, h)` are an initial part of the
sequence: allocation of the output buffer, allocation of the launch parameters,
upload of the launch parameters, 1x1x1 launch with the globals table, device
synchronisation, w x h x 1 launch with the render table, device synchronisation,
read-back of the printf buffer. A call that returns has made all of them, in this
order, and has then decoded the bytes read back; nothing is decoded before the
sequence is complete. -/
theorem render_order (dev : Device) (L : Libc) (tbl : HashMap) (fuel : Nat) (xres yres : Int)
    (s : Session) :
    ∃ bytes new,
      (render dev L tbl fuel xres yres s).after.calls = s.calls ++ new ∧
      new <+: [.cudaMalloc bytes, .cudaMalloc dev.sizeofRenderParams,
               .cudaMemcpyParams xres yres dev.sizeofRenderParams,
               .optixLaunch .m_setglobals_optix_sbt 1 1 1, .cudaSyncCheck,
               .optixLaunch .m_optix_sbt xres yres 1, .cudaSyncCheck,
               .cudaMemcpyPrintfBuffer dev.OSL_PRINTF_BUFFER_SIZE] ∧
      (new ≠ renderHistory dev bytes xres yres →
        (render dev L tbl fuel xres yres s).after.printed = s.printed) ∧
      (∀ s1, render dev L tbl fuel xres yres s = .returned () s1 →
        new = renderHistory dev bytes xres yres ∧
        s1.printed = s.printed ++
          (processPrintfBuffer L tbl (dev.printf_buffer s1.calls)
            dev.OSL_PRINTF_BUFFER_SIZE fuel).1.lines) := by
  unfold render
  cases hb : floatBytes xres yres 4 with
  | none =>
    exact ⟨0, [], by simp [Ended.after], List.nil_prefix, by simp [Ended.after], by simp⟩
  | some bytes =>
    refine ⟨bytes, ?_⟩
    simp only
    rcases checked_cases dev [.cudaMalloc bytes] s with h1 | ⟨new1, h1, hp1, hn1⟩
    · rw [h1]
      simp only
      rcases checked_cases dev [.cudaMalloc dev.sizeofRenderParams]
          { s with calls := s.calls ++ [.cudaMalloc bytes], d_output_buffer := some bytes }
        with h2 | ⟨new2, h2, hp2, hn2⟩
      · rw [h2]
        simp only
        rcases checked_cases dev (renderCalls dev xres yres)
            { s with calls := s.calls ++ [.cudaMalloc bytes] ++ [.cudaMalloc dev.sizeofRenderParams],
                     d_output_buffer := some bytes, m_xres := xres, m_yres := yres }
          with h3 | ⟨new3, h3, hp3, hn3⟩
        · rw [h3]
          simp only
          obtain ⟨d, e, hd⟩ := processPrintfBuffer_split L tbl
            (dev.printf_buffer (s.calls ++ [.cudaMalloc bytes] ++
              [.cudaMalloc dev.sizeofRenderParams] ++ renderCalls dev xres yres))
            dev.OSL_PRINTF_BUFFER_SIZE fuel
          refine ⟨renderHistory dev bytes xres yres, ?_, ?_, by simp, ?_⟩
          · rw [hd]
            cases e <;> simp [Ended.after, renderHistory]
          · simp [renderHistory, renderCalls]
          · intro s1 hs1
            refine ⟨rfl, ?_⟩
            rw [hd] at hs1
            have hd2 := congrArg (fun r => r.1.lines) hd
            simp only [List.append_assoc, List.singleton_append, List.cons_append,
              List.nil_append] at hd2
            cases e <;> simp at hs1
            all_goals
              subst hs1
              simp [hd2]
        · rw [h3]
          refine ⟨[.cudaMalloc bytes, .cudaMalloc dev.sizeofRenderParams] ++ new3,
            by simp [Ended.after], ?_, by simp [Ended.after], by simp⟩
          have := (List.prefix_append_right_inj
            [DriverCall.cudaMalloc bytes, .cudaMalloc dev.sizeofRenderParams]).2 hp3
          simpa [renderCalls] using this
      · rw [h2]
        have hnew2 : new2 = [.cudaMalloc dev.sizeofRenderParams] :=
          eq_singleton_of_initial new2 _ hp2 hn2
        subst hnew2
        refine ⟨[.cudaMalloc bytes, .cudaMalloc dev.sizeofRenderParams],
          by simp [Ended.after], ⟨_, rfl⟩, by simp [Ended.after], by simp⟩
    · rw [h1]
      have hnew1 : new1 = [.cudaMalloc bytes] := eq_singleton_of_initial new1 _ hp1 hn1
      subst hnew1
      refine ⟨[.cudaMalloc bytes], by simp [Ended.after], ⟨_, rfl⟩, by simp [Ended.after],
        by simp⟩

/-! ## The output buffer -/

theorem render_returned (dev : Device) (L : Libc) (tbl : HashMap) (fuel : Nat) (xres yres : Int)
    (s s1 : Session) (h : render dev L tbl fuel xres yres s = .returned () s1) :
    ∃ bytes, floatBytes xres yres 4 = some bytes ∧ s1.d_output_buffer = some bytes ∧
      s1.m_xres = xres ∧ s1.m_yres = yres := by
  unfold render at h
  cases hb : floatBytes xres yres 4 with
  | none => simp [hb] at h
  | some bytes =>
    refine ⟨bytes, rfl, ?_⟩
    simp only [hb] at h
    rcases checked_cases dev [.cudaMalloc bytes] s with h1 | ⟨new1, h1, -, -⟩
    · rw [h1] at h
      simp only at h
      rcases checked_cases dev [.cudaMalloc dev.sizeofRenderParams]
          { s with calls := s.calls ++ [.cudaMalloc bytes], d_output_buffer := some bytes }
        with h2 | ⟨new2, h2, -, -⟩
      · rw [h2] at h
        simp only at h
        rcases checked_cases dev (renderCalls dev xres yres)
            { s with calls := s.calls ++ [.cudaMalloc bytes] ++ [.cudaMalloc dev.sizeofRenderParams],
                     d_output_buffer := some bytes, m_xres := xres, m_yres := yres }
          with h3 | ⟨new3, h3, -, -⟩
        · rw [h3] at h
          simp only at h
          split at h
          · simp only [Ended.returned.injEq, true_and] at h
            subst h
            simp
          · simp only [Ended.returned.injEq, true_and] at h
            subst h
            simp
          · simp at h
        · rw [h3] at h; simp at h
      · rw [h2] at h; simp at h
    · rw [h1] at h; simp at h

theorem intMul_natCast (n c : Nat) :
    intMul (n : Int) (c : Int) = if n * c < 2 ^ 31 then some ((n * c : Nat) : Int) else none := by
  have hm : (n : Int) * (c : Int) = ((n * c : Nat) : Int) := by push_cast; ring
  unfold intMul
  rw [hm]
  by_cases h : n * c < 2 ^ 31
  · rw [if_pos (by omega), if_pos h]
  · rw [if_neg (by omega), if_neg h]

theorem floatBytes_natCast (xres yres : Int) (n c : Nat) (hp : xres * yres = n) :
    floatBytes xres yres c
      = if n < 2 ^ 31 ∧ n * c < 2 ^ 31 then some (n * c * 4) else none := by
  have h1 : intMul xres yres = if n < 2 ^ 31 then some (n : Int) else none := by
    have := intMul_natCast n 1
    unfold intMul at this ⊢
    rw [hp]
    simpa using this
  rw [floatBytes, h1]
  by_cases hn : n < 2 ^ 31
  · rw [if_pos hn, Option.some_bind, intMul_natCast]
    by_cases hnc : n * c < 2 ^ 31
    · rw [if_pos hnc, if_pos ⟨hn, hnc⟩, Option.map_some']
      congr 1
      omega
    · rw [if_neg hnc, if_neg (fun h => hnc h.2)]
      rfl
  · rw [if_neg hn, if_neg (fun h => hn h.1)]
    rfl

/-- C19 (amended): after `render(w, h)` has returned for `w, h >= 0`, the device output
buffer is an allocation of `w*h*4*sizeof(float)` bytes, and `finalize_pixel_buffer`
copies `w*h*3*sizeof(float)` bytes of it to the host: three floats per pixel, never
more than was allocated, and as much as was allocated only when `w*h = 0`. -/
theorem readback_three_floats (dev : Device) (L : Libc) (tbl : HashMap) (fuel : Nat)
    (xres yres : Int) (s s1 : Session) (hx : 0 ≤ xres) (hy : 0 ≤ yres)
    (h : render dev L tbl fuel xres yres s = .returned () s1) :
    s1.d_output_buffer = some ((xres * yres).toNat * 4 * 4) ∧
    (finalize_pixel_buffer dev s1).after.calls
      = s1.calls ++ [.cudaMemcpyOutputBuffer ((xres * yres).toNat * 3 * 4)] ∧
    (xres * yres).toNat * 3 * 4 ≤ (xres * yres).toNat * 4 * 4 ∧
    ((xres * yres).toNat * 3 * 4 = (xres * yres).toNat * 4 * 4 ↔ xres * yres = 0) := by
  obtain ⟨bytes, hb, hbuf, hmx, hmy⟩ := render_returned dev L tbl fuel xres yres s s1 h
  obtain ⟨n, hn⟩ := Int.eq_ofNat_of_zero_le (Int.mul_nonneg hx hy)
  have htn : (xres * yres).toNat = n := by rw [hn]; rfl
  have hb4 := floatBytes_natCast xres yres n 4 hn
  have hb3 := floatBytes_natCast xres yres n 3 hn
  simp only [Nat.cast_ofNat] at hb4 hb3
  rw [hb4] at hb
  have hcond : n < 2 ^ 31 ∧ n * 4 < 2 ^ 31 := by
    by_contra hc
    rw [if_neg hc] at hb
    cases hb
  rw [if_pos hcond] at hb
  have h3 : floatBytes xres yres 3 = some (n * 3 * 4) := by
    rw [hb3, if_pos ⟨hcond.1, by omega⟩]
  have hzero : xres * yres = 0 ↔ n = 0 := by rw [hn]; omega
  rw [htn, hzero]
  refine ⟨by rw [hbuf, ← hb], ?_, by omega, by omega⟩
  unfold finalize_pixel_buffer
  rw [hmx, hmy, h3]
  simp only
  rcases checked_cases dev [.cudaMemcpyOutputBuffer (n * 3 * 4)] s1
    with h1 | ⟨new1, h1, hp1, hn1⟩
  · rw [h1]; simp [Ended.after]
  · rw [h1, eq_singleton_of_initial new1 _ hp1 hn1]; simp [Ended.after]

/-- C19 (witness): `render(2, 2)` from a new session on `plainDevice`. -/
theorem readback_three_floats_witness :
    render plainDevice stdc tableA 1 2 2 (newSession [shaderA]) = .returned () renderedSession ∧
    (renderedSession.d_output_buffer = some (((2 : Int) * 2).toNat * 4 * 4) ∧
     (finalize_pixel_buffer plainDevice renderedSession).after.calls
       = renderedSession.calls ++ [.cudaMemcpyOutputBuffer (((2 : Int) * 2).toNat * 3 * 4)] ∧
     ((2 : Int) * 2).toNat * 3 * 4 ≤ ((2 : Int) * 2).toNat * 4 * 4 ∧
     (((2 : Int) * 2).toNat * 3 * 4 = ((2 : Int) * 2).toNat * 4 * 4 ↔ (2 : Int) * 2 = 0)) :=
  ⟨by decide,
   readback_three_floats plainDevice stdc tableA 1 2 2 (newSession [shaderA]) renderedSession
     (by decide) (by decide) (by decide)⟩

/-- C19 (as stated, refuted): after `render(2, 2)` the output buffer has
`2*2*4*sizeof(float) = 64` bytes, and `finalize_pixel_buffer` copies 48 bytes of it,
not 64. -/
theorem readback_is_shorter :
    render plainDevice stdc tableA 1 2 2 (newSession [shaderA]) = .returned () renderedSession ∧
    renderedSession.d_output_buffer = some (2 * 2 * 4 * 4) ∧
    (finalize_pixel_buffer plainDevice renderedSession).after.calls.getLast?
      = some (.cudaMemcpyOutputBuffer 48) ∧
    (48 : Nat) ≠ 2 * 2 * 4 * 4 := by
  decide

/-! ## make_optix_materials -/

theorem createMaterials_some (dev : Device) (gs : List ShaderGroup) :
    ∀ (m : Nat) (pgs : List ProgramGroup) (id : Nat) (s : Session)
      (pgs1 : List ProgramGroup) (s1 : Session),
      createMaterials dev gs m pgs id s = .returned (some pgs1) s1 →
      pgs1 = pgs ++ materialGroups m gs ∧
      s1.calls = s.calls ++ allMaterialCalls m gs ∧
      s1.m_optix_sbt = s.m_optix_sbt ∧
      s1.m_setglobals_optix_sbt = s.m_setglobals_optix_sbt ∧
      s1.shaders = s.shaders := by
  induction gs with
  | nil =>
    intro m pgs id s pgs1 s1 h
    simp only [createMaterials, Ended.returned.injEq, Option.some.injEq] at h
    obtain ⟨rfl, rfl⟩ := h
    simp [materialGroups, allMaterialCalls]
  | cons g rest ih =>
    intro m pgs id s pgs1 s1 h
    simp only [createMaterials] at h
    split at h
    · simp at h
    · split at h
      · simp at h
      · rename_i s3 hk
        have h3 := checked_ok dev _ _ _ hk
        obtain ⟨hp, hc, hs1, hs2, hs3⟩ := ih _ _ _ _ _ _ h
        rw [h3] at hc hs1 hs2 hs3
        refine ⟨?_, ?_, hs1, hs2, hs3⟩
        · rw [hp]; simp [materialGroups]
        · rw [hc]; simp [allMaterialCalls]

theorem createPipeline_some (dev : Device) (s s1 : Session) (pg0 pg1 : ProgramGroup)
    (h : createPipeline dev s = .returned (some (pg0, pg1)) s1) :
    ∃ p r g rest,
      dev.ptx_file "optix_grid_renderer.ptx".toList = some p ∧
      dev.ptx_file "rend_lib.ptx".toList = some r ∧
      s.shaders = g :: rest ∧ pg0 = init_group 2 g ∧ pg1 = entry_group 2 g ∧
      s1.calls = s.calls ++ (rendererCalls p ++ rendLibCalls r ++ allMaterialCalls 2 s.shaders
        ++ [.optixPipelineCreate (final_groups pg0 pg1) 1]) ∧
      s1.m_optix_pipeline = some (final_groups pg0 pg1) ∧
      s1.m_optix_sbt = s.m_optix_sbt ∧
      s1.m_setglobals_optix_sbt = s.m_setglobals_optix_sbt ∧
      s1.shaders = s.shaders := by
  unfold createPipeline at h
  cases hp : dev.ptx_file "optix_grid_renderer.ptx".toList with
  | none => simp only [load_ptx_file, hp] at h; simp at h
  | some p =>
    simp only [load_ptx_file, hp] at h
    split at h
    · simp at h
    · split at h
      · simp at h
      · rename_i s2 hk2
        have h2 := checked_ok dev _ _ _ hk2
        subst h2
        cases hr : dev.ptx_file "rend_lib.ptx".toList with
        | none => simp only [hr] at h; simp at h
        | some r =>
          simp only [hr] at h
          split at h
          · simp at h
          · split at h
            · simp at h
            · rename_i s4 hk4
              have h4 := checked_ok dev _ _ _ hk4
              subst h4
              split at h
              · simp at h
              · rename_i pga pgb tl s5 hcm
                split at h
                · simp at h
                · rename_i s6 hk6
                  have h6 := checked_ok dev _ _ _ hk6
                  subst h6
                  simp only [Ended.returned.injEq, Option.some.injEq, Prod.mk.injEq] at h
                  obtain ⟨⟨rfl, rfl⟩, rfl⟩ := h
                  obtain ⟨hpg, hc, hs1, hs2, hs3⟩ := createMaterials_some dev _ _ _ _ _ _ _ hcm
                  simp only at hpg hc hs1 hs2 hs3
                  cases hsh : s.shaders with
                  | nil =>
                    rw [hsh] at hpg
                    simp [materialGroups] at hpg
                  | cons g rest =>
                    rw [hsh] at hpg
                    simp only [materialGroups, List.nil_append, List.cons.injEq] at hpg
                    refine ⟨p, r, g, rest, rfl, rfl, rfl, hpg.1, hpg.2.1, ?_, rfl, hs1, hs2, ?_⟩
                    · simp only [hc, hsh]; simp
                    · rw [← hsh]; exact hs3
              · simp at h
              · simp at h
              · simp at h
              · simp at h

theorem make_optix_materials_true (dev : Device) (s s1 : Session)
    (h : make_optix_materials dev s = .returned true s1) :
    ∃ p r g rest,
      dev.ptx_file "optix_grid_renderer.ptx".toList = some p ∧
      dev.ptx_file "rend_lib.ptx".toList = some r ∧
      s.shaders = g :: rest ∧
      s1.calls = s.calls ++ (rendererCalls p ++ rendLibCalls r ++ allMaterialCalls 2 s.shaders
        ++ [.optixPipelineCreate (final_groups (init_group 2 g) (entry_group 2 g)) 1]
        ++ stackSizeCalls (final_groups (init_group 2 g) (entry_group 2 g))
        ++ sbtCalls dev (init_group 2 g) (entry_group 2 g)) ∧
      s1.m_optix_pipeline = some (final_groups (init_group 2 g) (entry_group 2 g)) ∧
      s1.m_optix_sbt = renderSbt dev (init_group 2 g) (entry_group 2 g) ∧
      s1.m_setglobals_optix_sbt = setglobalsSbt dev := by
  unfold make_optix_materials at h
  split at h
  · simp at h
  · rename_i pg0 pg1 s2 hcp
    obtain ⟨p, r, g, rest, hp, hr, hsh, rfl, rfl, hc, hpl, -, -, -⟩ :=
      createPipeline_some dev s s2 pg0 pg1 hcp
    split at h
    · simp at h
    · rename_i s3 hk3
      have h3 := checked_ok dev _ _ _ hk3
      subst h3
      split at h
      · simp at h
      · rename_i s4 hk4
        have h4 := checked_ok dev _ _ _ hk4
        subst h4
        simp only [Ended.returned.injEq, true_and] at h
        subst h
        refine ⟨p, r, g, rest, hp, hr, hsh, ?_, hpl, rfl, rfl⟩
        simp only [hc]
        simp
  · simp at h
  · simp at h
  · simp at h

/-! ## The binding tables -/

/-- C17 (amended): after `make_optix_materials` has returned `true` for the materials
`m0, m1, ...` (there is at least one), the program groups linked into the pipeline by
`optixPipelineCreate` are the six fixed groups (support library, raygen, miss, hit
group, set-globals raygen, set-globals miss) together with the init and entry
callable groups of the first material `m0` only. -/
theorem pipeline_groups (dev : Device) (s s1 : Session)
    (h : make_optix_materials dev s = .returned true s1) :
    ∃ g rest, s.shaders = g :: rest ∧
      s1.m_optix_pipeline
        = some [rend_lib_group, raygen_group, miss_group, hitgroup_group,
                init_group 2 g, entry_group 2 g, setglobals_raygen_group,
                setglobals_miss_group] ∧
      DriverCall.optixPipelineCreate
          [rend_lib_group, raygen_group, miss_group, hitgroup_group,
           init_group 2 g, entry_group 2 g, setglobals_raygen_group,
           setglobals_miss_group] 1 ∈ s1.calls := by
  obtain ⟨p, r, g, rest, -, -, hsh, hc, hpl, -, -⟩ := make_optix_materials_true dev s s1 h
  refine ⟨g, rest, hsh, hpl, ?_⟩
  rw [hc]
  simp [final_groups]

/-- C17 (witness): the pipeline linked on `plainDevice` for `A` and `B`. -/
theorem pipeline_groups_witness :
    make_optix_materials plainDevice (newSession [shaderA, shaderB])
      = .returned true twoMaterialSession ∧
    ∃ g rest, (newSession [shaderA, shaderB]).shaders = g :: rest ∧
      twoMaterialSession.m_optix_pipeline
        = some [rend_lib_group, raygen_group, miss_group, hitgroup_group,
                init_group 2 g, entry_group 2 g, setglobals_raygen_group,
                setglobals_miss_group] ∧
      DriverCall.optixPipelineCreate
          [rend_lib_group, raygen_group, miss_group, hitgroup_group,
           init_group 2 g, entry_group 2 g, setglobals_raygen_group,
           setglobals_miss_group] 1 ∈ twoMaterialSession.calls :=
  ⟨by decide,
   pipeline_groups plainDevice (newSession [shaderA, shaderB]) twoMaterialSession (by decide)⟩

/-- C17 (as stated, refuted): for the two materials `A` and `B` `make_optix_materials`
returns `true` and has created the init and entry groups of `B`, but the pipeline it
links has 8 groups and contains neither of them. -/
theorem pipeline_lacks_second_material :
    make_optix_materials plainDevice (newSession [shaderA, shaderB])
      = .returned true twoMaterialSession ∧
    DriverCall.optixProgramGroupCreate [init_group 3 shaderB, entry_group 3 shaderB]
      ∈ twoMaterialSession.calls ∧
    twoMaterialSession.m_optix_pipeline = some (final_groups (init_group 2 shaderA)
      (entry_group 2 shaderA)) ∧
    init_group 3 shaderB ∉ final_groups (init_group 2 shaderA) (entry_group 2 shaderA) ∧
    entry_group 3 shaderB ∉ final_groups (init_group 2 shaderA) (entry_group 2 shaderA) := by
  decide

/-! ## One record per group -/

theorem packedGroups_append (a b : List DriverCall) :
    packedGroups (a ++ b) = packedGroups a ++ packedGroups b := by
  simp [packedGroups, List.filterMap_append]

theorem packedGroups_allMaterialCalls (gs : List ShaderGroup) :
    ∀ m, packedGroups (allMaterialCalls m gs) = [] := by
  induction gs with
  | nil => intro m; rfl
  | cons g rest ih =>
    intro m
    simp only [allMaterialCalls, packedGroups_append, ih]
    rfl

theorem packedGroups_stackSizeCalls (groups : List ProgramGroup) :
    packedGroups (stackSizeCalls groups) = [] := by
  simp only [stackSizeCalls, packedGroups_append]
  have h1 : packedGroups (groups.map .optixUtilAccumulateStackSizes) = [] := by
    induction groups with
    | nil => rfl
    | cons g rest ih => simpa [packedGroups] using ih
  rw [h1]
  rfl

/-- C18 (amended): after `make_optix_materials` has returned `true`, the groups from
which it has packed a record header (`optixSbtRecordPackHeader`) are, one call each
and in this order, the groups linked into the pipeline other than the first, the
support library group `rend_lib_group`; that group is linked but no record is
packed from it, and no record is packed from a group outside the pipeline. -/
theorem records_of_linked_groups (dev : Device) (s s1 : Session)
    (h : make_optix_materials dev s = .returned true s1) :
    ∃ linked new, s1.m_optix_pipeline = some linked ∧ s1.calls = s.calls ++ new ∧
      linked.head? = some rend_lib_group ∧
      packedGroups new = linked.tail ∧
      rend_lib_group ∉ packedGroups new ∧
      ∀ g ∈ packedGroups new, g ∈ linked := by
  obtain ⟨p, r, g, rest, -, -, hsh, hc, hpl, -, -⟩ := make_optix_materials_true dev s s1 h
  have hpk : packedGroups (rendererCalls p ++ rendLibCalls r ++ allMaterialCalls 2 s.shaders
        ++ [.optixPipelineCreate (final_groups (init_group 2 g) (entry_group 2 g)) 1]
        ++ stackSizeCalls (final_groups (init_group 2 g) (entry_group 2 g))
        ++ sbtCalls dev (init_group 2 g) (entry_group 2 g))
      = (final_groups (init_group 2 g) (entry_group 2 g)).tail := by
    simp only [packedGroups_append, packedGroups_allMaterialCalls, packedGroups_stackSizeCalls]
    rfl
  refine ⟨_, _, hpl, hc, rfl, hpk, ?_, ?_⟩
  · rw [hpk]
    simp [final_groups, rend_lib_group, raygen_group, miss_group, hitgroup_group, init_group,
      entry_group, setglobals_raygen_group, setglobals_miss_group]
  · intro x hx
    rw [hpk] at hx
    exact List.mem_of_mem_tail hx

/-- C18 (witness): the records packed on `plainDevice` for the shader group `A`. -/
theorem records_of_linked_groups_witness :
    make_optix_materials plainDevice (newSession [shaderA]) = .returned true oneMaterialSession ∧
    ∃ linked new, oneMaterialSession.m_optix_pipeline = some linked ∧
      oneMaterialSession.calls = (newSession [shaderA]).calls ++ new ∧
      linked.head? = some rend_lib_group ∧
      packedGroups new = linked.tail ∧
      rend_lib_group ∉ packedGroups new ∧
      ∀ g ∈ packedGroups new, g ∈ linked :=
  ⟨by decide,
   records_of_linked_groups plainDevice (newSession [shaderA]) oneMaterialSession (by decide)⟩

/-- C18 (as stated, refuted): on `plainDevice` with the shader group `A`,
`make_optix_materials` returns `true`; the group `rend_lib_group` is linked into the
pipeline, and no `optixSbtRecordPackHeader` call is made for it: it contributes no
record. -/
theorem rend_lib_has_no_record :
    make_optix_materials plainDevice (newSession [shaderA]) = .returned true oneMaterialSession ∧
    (∃ linked, oneMaterialSession.m_optix_pipeline = some linked ∧ rend_lib_group ∈ linked) ∧
    (packedGroups oneMaterialSession.calls).count rend_lib_group = 0 := by
  refine ⟨by decide, ⟨_, rfl, by decide⟩, by decide⟩

/-! ## Failures while the pipeline is built -/

theorem isSbtCall_allMaterialCalls (gs : List ShaderGroup) :
    ∀ m, ∀ c ∈ allMaterialCalls m gs, isSbtCall c = false := by
  induction gs with
  | nil => intro m c hc; simp [allMaterialCalls] at hc
  | cons g rest ih =>
    intro m c hc
    simp only [allMaterialCalls, List.mem_append] at hc
    rcases hc with hc | hc
    · simp only [materialCalls, List.mem_cons, List.mem_singleton, List.not_mem_nil,
        or_false] at hc
      rcases hc with rfl | rfl <;> rfl
    · exact ih _ c hc

theorem isStackSizeCall_stackSizeCalls (groups : List ProgramGroup) :
    ∀ c ∈ stackSizeCalls groups, isStackSizeCall c = true := by
  intro c hc
  simp only [stackSizeCalls, List.mem_append, List.mem_map, List.mem_cons, List.mem_singleton,
    List.not_mem_nil, or_false] at hc
  rcases hc with ⟨g, -, rfl⟩ | rfl | rfl <;> rfl

theorem not_sbt_of_stackSize (c : DriverCall) (h : isStackSizeCall c = true) :
    isSbtCall c = false := by
  cases c <;> simp [isStackSizeCall] at h <;> rfl

/-- C16: if `make_optix_materials` has linked the pipeline (`optixPipelineCreate` has
succeeded) and one of the calls that accumulate, compute or apply the stack sizes
then fails, `make_optix_materials` does not return: it ends in `exit(1)` at that
call. No call that assembles a binding table (`optixSbtRecordPackHeader`,
`cudaMalloc`, `cudaMemcpy`) has been made, and both binding tables are as they were
before the call. -/
theorem stack_size_failure_exits (dev : Device) (s s1 s2 : Session) (pg0 pg1 : ProgramGroup)
    (hlinked : createPipeline dev s = .returned (some (pg0, pg1)) s1)
    (hfail : checked dev (stackSizeCalls (final_groups pg0 pg1)) s1 = .error s2) :
    make_optix_materials dev s = .exit1 s2 ∧
    (∃ new c, s2.calls = s.calls ++ new ++ [c] ∧ isStackSizeCall c = true ∧
      dev.succeeds (s.calls ++ new) c = false ∧
      ∀ x ∈ new ++ [c], isSbtCall x = false) ∧
    s2.m_optix_sbt = s.m_optix_sbt ∧
    s2.m_setglobals_optix_sbt = s.m_setglobals_optix_sbt := by
  obtain ⟨p, r, g, rest, -, -, hsh, rfl, rfl, hc, -, hs1, hs2, -⟩ :=
    createPipeline_some dev s s1 pg0 pg1 hlinked
  obtain ⟨pre, c, post, hscript, hs2eq, hf⟩ := checked_error dev _ _ _ hfail
  have hcstack : isStackSizeCall c = true :=
    isStackSizeCall_stackSizeCalls _ c (by rw [hscript]; simp)
  have hprestack : ∀ x ∈ pre, isStackSizeCall x = true := by
    intro x hx
    exact isStackSizeCall_stackSizeCalls _ x (by rw [hscript]; simp [hx])
  refine ⟨?_, ⟨(rendererCalls p ++ rendLibCalls r ++ allMaterialCalls 2 s.shaders
        ++ [.optixPipelineCreate (final_groups (init_group 2 g) (entry_group 2 g)) 1]) ++ pre,
      c, ?_, hcstack, ?_, ?_⟩, ?_, ?_⟩
  · simp only [make_optix_materials, hlinked, hfail]
  · rw [hs2eq]
    simp only [hc]
    simp
  · rw [← List.append_assoc, ← hc]
    exact hf
  · intro x hx
    simp only [List.mem_append, List.mem_singleton, rendererCalls, rendLibCalls, List.mem_cons,
      List.not_mem_nil, or_false] at hx
    rcases hx with ((((hx | hx) | hx) | hx) | hx) | hx
    · rcases hx with rfl | rfl | rfl | rfl | rfl | rfl <;> rfl
    · rcases hx with rfl | rfl <;> rfl
    · exact isSbtCall_allMaterialCalls _ _ x hx
    · rw [hx]; rfl
    · exact not_sbt_of_stackSize x (hprestack x hx)
    · rw [hx]; exact not_sbt_of_stackSize c hcstack
  · rw [hs2eq]; exact hs1
  · rw [hs2eq]; exact hs2

/-- C16 (witness): on `noStackDevice`, where `optixUtilComputeStackSizes` fails,
`make_optix_materials` for the shader group `A` ends in `exit(1)`. -/
theorem stack_size_failure_exits_witness :
    createPipeline noStackDevice (newSession [shaderA])
      = .returned (some (init_group 2 shaderA, entry_group 2 shaderA)) linkedSession ∧
    checked noStackDevice
        (stackSizeCalls (final_groups (init_group 2 shaderA) (entry_group 2 shaderA)))
        linkedSession = .error stackFailedSession ∧
    make_optix_materials noStackDevice (newSession [shaderA]) = .exit1 stackFailedSession ∧
    stackFailedSession.m_optix_sbt = (newSession [shaderA]).m_optix_sbt :=
  have h1 : createPipeline noStackDevice (newSession [shaderA])
      = .returned (some (init_group 2 shaderA, entry_group 2 shaderA)) linkedSession := by
    decide
  have h2 : checked noStackDevice
        (stackSizeCalls (final_groups (init_group 2 shaderA) (entry_group 2 shaderA)))
        linkedSession = .error stackFailedSession := rfl
  have hall := stack_size_failure_exits noStackDevice (newSession [shaderA]) linkedSession
    stackFailedSession (init_group 2 shaderA) (entry_group 2 shaderA) h1 h2
  ⟨h1, h2, hall.1, hall.2.2.1⟩

/-- C15 (failing input): on a device without the file `rend_lib.ptx`,
`make_optix_materials` logs the error and returns `false` without creating a pipeline,
but `finalize_scene` drops that value and returns `true`. -/
theorem finalize_scene_reports_success :
    make_optix_materials noRendLibDevice (newSession [shaderA])
      = .returned false noRendLibSession ∧
    noRendLibSession.m_optix_pipeline = none ∧
    noRendLibSession.messages
      = [(.severe, "Unable to load rend_lib.ptx".toList),
         (.severe, "Could not find PTX for the raygen program".toList)] ∧
    finalize_scene noRendLibDevice (newSession [shaderA]) = .returned true noRendLibSession := by
  decide

/-! ## The globals map -/

/-- C26: `register_global(name, v)` on a map that already binds `name` returns the
stored value and leaves the map unchanged; on a map that does not bind `name` it
returns `v` and adds exactly the binding `name -> v`, every other binding being
unchanged. A second `register_global(name, v2)` returns what the first returned, so
from a map without `name` the calls with `v1` and then `v2` return `v1` both times. -/
theorem register_global_spec (m : GlobalsMap) (name : List Char) (v1 v2 : Nat) :
    (∀ stored, m name = some stored →
      register_global m name v1 = (stored, m)) ∧
    (m name = none →
      (register_global m name v1).1 = v1 ∧
      (register_global m name v1).2 name = some v1 ∧
      ∀ other, other ≠ name → (register_global m name v1).2 other = m other) ∧
    (register_global (register_global m name v1).2 name v2).1 = (register_global m name v1).1 ∧
    (m name = none →
      (register_global m name v1).1 = v1 ∧
      (register_global (register_global m name v1).2 name v2).1 = v1) := by
  cases h : m name with
  | some stored => simp [register_global, h]
  | none =>
    simp only [register_global, h]
    exact ⟨by simp, fun _ => ⟨by simp, by simp, fun other hne => by simp [hne]⟩, by simp,
      by simp⟩

/-- C26 (witness): `register_global("b", 1)` then `register_global("b", 2)` on a map that
binds only `"a"`, and `register_global("a", 1)` on the same map. -/
theorem register_global_witness :
    globalsA ['b'] = none ∧ globalsA ['a'] = some 5 ∧
    register_global globalsA ['a'] 1 = (5, globalsA) ∧
    ((register_global globalsA ['b'] 1).1 = 1 ∧
     (register_global (register_global globalsA ['b'] 1).2 ['b'] 2).1 = 1) :=
  ⟨rfl, rfl, (register_global_spec globalsA ['a'] 1 2).1 5 rfl,
   (register_global_spec globalsA ['b'] 1 2).2.2.2 rfl⟩

/-- C27: `fetch_global(name, out)` returns `true` and stores the bound value in `*out`
exactly when the map binds `name`; for an unbound name it returns `false` and leaves
`*out` as it was; the map is unchanged in both cases. After `register_global(name, v)`
on a map without `name` it yields `v`, and on a map that no `register_global` has
touched (the empty map) it returns `false`. -/
theorem fetch_global_spec (m : GlobalsMap) (name : List Char) (out v : Nat) :
    (∀ stored, m name = some stored → fetch_global m name out = (true, stored, m)) ∧
    (m name = none → fetch_global m name out = (false, out, m)) ∧
    ((fetch_global m name out).1 = true ↔ ∃ stored, m name = some stored) ∧
    (fetch_global m name out).2.2 = m ∧
    (m name = none →
      (fetch_global (register_global m name v).2 name out).1 = true ∧
      (fetch_global (register_global m name v).2 name out).2.1 = v) ∧
    fetch_global (fun _ => none) name out = (false, out, fun _ => none) := by
  cases h : m name with
  | some stored => simp [fetch_global, h]
  | none => simp [fetch_global, register_global, h]

/-- C27 (witness): `fetch_global` for the bound name `"a"` and the unbound name `"b"`. -/
theorem fetch_global_witness :
    fetch_global globalsA ['a'] 0 = (true, 5, globalsA) ∧
    fetch_global globalsA ['b'] 9 = (false, 9, globalsA) :=
  ⟨(fetch_global_spec globalsA ['a'] 0 0).1 5 rfl,
   (fetch_global_spec globalsA ['b'] 9 0).2.1 rfl⟩

/-! ## Failed loads are not cached -/

/-- C28: when `get_texture_handle` does not find the path in the cache and cannot open
its image, it returns the null handle and leaves `m_samplers` unchanged: no entry,
not even a null one, is stored for the path. A later request for the same path is
again a cache miss that calls `init_spec`: while the image still cannot be opened it
logs the error again, and once it can be opened the request proceeds to the upload
exactly as it would have without the failed request. -/
theorem failed_load_not_cached (w w2 : World) (r : Renderer) (p : List Char)
    (hmiss : r.m_samplers p = none) (hopen : w.init_spec p = none) :
    ∃ r1, get_texture_handle w r p = .returned nullHandle r1 ∧
      r1.m_samplers = r.m_samplers ∧ r1.m_samplers p = none ∧ r1.device = r.device ∧
      r1.errors = r.errors ++ ["Could not load: ".toList ++ p] ∧
      (w2.init_spec p = none →
        get_texture_handle w2 r1 p
          = .returned nullHandle
              { r1 with errors := r1.errors ++ ["Could not load: ".toList ++ p] }) ∧
      (∀ image, w2.init_spec p = some image → ∀ h r2,
        get_texture_handle w2 r p = .returned h r2 →
        ∃ r3, get_texture_handle w2 r1 p = .returned h r3 ∧
          r3.m_samplers = r2.m_samplers ∧ r3.device = r2.device) := by
  refine ⟨{ r with errors := r.errors ++ ["Could not load: ".toList ++ p] }, ?_, rfl, hmiss,
    rfl, rfl, ?_, ?_⟩
  · simp only [get_texture_handle, hmiss, hopen]
  · intro h2
    simp only [get_texture_handle, hmiss, h2]
  · intro image himg h r2 hcall
    simp only [get_texture_handle, hmiss, himg] at hcall ⊢
    cases hfill : fillPixels image with
    | none => simp [hfill] at hcall
    | some pixels =>
      simp only [hfill] at hcall ⊢
      cases hpitch : pitchBytes image.width with
      | none => simp [hpitch] at hcall
      | some pitch =>
        simp only [hpitch] at hcall ⊢
        cases ha : w2.cuda r.device (.mallocArray image.width image.height) with
        | none => simp [ha] at hcall
        | some a =>
          simp only [ha] at hcall ⊢
          cases hb : w2.cuda (r.device ++ [.mallocArray image.width image.height])
              (.memcpy2DToArray a pixels pitch image.height) with
          | none => simp [hb] at hcall
          | some b =>
            simp only [hb] at hcall ⊢
            cases hc : w2.cuda (r.device ++ [.mallocArray image.width image.height,
                .memcpy2DToArray a pixels pitch image.height])
                (.createTextureObject a) with
            | none => simp [hc] at hcall
            | some c =>
              simp only [hc, Call.returned.injEq] at hcall ⊢
              obtain ⟨rfl, rfl⟩ := hcall
              exact ⟨_, ⟨rfl, rfl⟩, rfl, rfl⟩

/-- C28 (witness): the failed request for `"/does/not/exist.exr"` on a fresh renderer. -/
theorem failed_load_not_cached_witness :
    Renderer.fresh.m_samplers missingPath = none ∧ emptyWorld.init_spec missingPath = none ∧
    ∃ r1, get_texture_handle emptyWorld Renderer.fresh missingPath = .returned nullHandle r1 ∧
      r1.m_samplers = Renderer.fresh.m_samplers ∧ r1.m_samplers missingPath = none ∧
      r1.device = Renderer.fresh.device ∧
      r1.errors = Renderer.fresh.errors ++ ["Could not load: ".toList ++ missingPath] ∧
      (emptyWorld.init_spec missingPath = none →
        get_texture_handle emptyWorld r1 missingPath
          = .returned nullHandle
              { r1 with errors := r1.errors ++ ["Could not load: ".toList ++ missingPath] }) ∧
      (∀ image, emptyWorld.init_spec missingPath = some image → ∀ h r2,
        get_texture_handle emptyWorld Renderer.fresh missingPath = .returned h r2 →
        ∃ r3, get_texture_handle emptyWorld r1 missingPath = .returned h r3 ∧
          r3.m_samplers = r2.m_samplers ∧ r3.device = r2.device) :=
  ⟨rfl, rfl, failed_load_not_cached emptyWorld emptyWorld Renderer.fresh missingPath rfl rfl⟩

/-! ## The conversions of the format loop -/

theorem alignDouble_spec (src : Nat) :
    alignDouble src % 8 = 0 ∧ src ≤ alignDouble src ∧ alignDouble src < src + 8 ∧
    (src % 8 = 0 → alignDouble src = src) := by
  unfold alignDouble
  omega

/-- C21: in the format loop, for each of the conversions `d`, `i`, `o` and `x` (with
`fmt_string` the specification collected since the `%`), `processPrintfBuffer` loads
the 4 bytes at the current argument offset `ptr + src` as an `int`, hands it to
`snprintf` with that specification, appends the text to the line and goes on with
`src + 4`: the offset is not aligned before the load nor after it. -/
theorem int_conversion (L : Libc) (tbl : HashMap) (mem : Memory) (ptr : Nat) (c : Char)
    (rest fs : List Char) (st : Locals) (text : List Char)
    (hc : c = 'd' ∨ c = 'i' ∨ c = 'o' ∨ c = 'x')
    (htext : L.snprintfInt (fs ++ [c]) (readInt mem (ptr + st.src)) = some text)
    (hdst : st.dst ≤ BufferSize) :
    formatLoop L tbl mem ptr (c :: rest) (some fs) st =
      formatLoop L tbl mem ptr rest none
        { src := st.src + 4, dst := st.dst + text.length,
          buffer := st.buffer ++ text.take (BufferSize - st.dst - 1),
          reads := st.reads ++ [(ptr + st.src, 4)] } ∧
    formatLoop L tbl mem ptr ('%' :: c :: rest) none st
      = formatLoop L tbl mem ptr (c :: rest) (some ['%']) st := by
  have hlt : ¬ BufferSize < st.dst := by omega
  refine ⟨?_, by simp [formatLoop]⟩
  rcases hc with rfl | rfl | rfl | rfl <;>
    simp [formatLoop, putFormatted, htext, hlt]

/-- C21 (witness): `%d` on the `int` -2 stored at offset 16. -/
theorem int_conversion_witness :
    stdc.snprintfInt (['%'] ++ ['d']) (readInt (ofBytes argBytes) (0 + Locals.fresh.src))
      = some ['-', '2'] ∧
    (formatLoop stdc tableA (ofBytes argBytes) 0 ('d' :: ['!']) (some ['%']) Locals.fresh =
      formatLoop stdc tableA (ofBytes argBytes) 0 ['!'] none
        { src := Locals.fresh.src + 4, dst := Locals.fresh.dst + ['-', '2'].length,
          buffer := Locals.fresh.buffer ++ ['-', '2'].take (BufferSize - Locals.fresh.dst - 1),
          reads := Locals.fresh.reads ++ [(0 + Locals.fresh.src, 4)] } ∧
     formatLoop stdc tableA (ofBytes argBytes) 0 ('%' :: 'd' :: ['!']) none Locals.fresh
      = formatLoop stdc tableA (ofBytes argBytes) 0 ('d' :: ['!']) (some ['%']) Locals.fresh) :=
  ⟨by decide,
   int_conversion stdc tableA (ofBytes argBytes) 0 'd' ['!'] ['%'] Locals.fresh ['-', '2']
     (Or.inl rfl) (by decide) (by decide)⟩

/-- C22: in the format loop, for each of the conversions `f`, `g` and `e`,
`processPrintfBuffer` first rounds the argument offset `src` (counted from the start
of the record) up to the next multiple of 8, loads the 8 bytes there as a double,
hands them to `snprintf` and goes on with the offset 8 past the aligned position; an
offset that is a multiple of 8 already is not moved by the alignment. -/
theorem double_conversion (L : Libc) (tbl : HashMap) (mem : Memory) (ptr : Nat) (c : Char)
    (rest fs : List Char) (st : Locals) (text : List Char)
    (hc : c = 'f' ∨ c = 'g' ∨ c = 'e')
    (htext : L.snprintfDouble (fs ++ [c]) (readU64 mem (ptr + alignDouble st.src)) = some text)
    (hdst : st.dst ≤ BufferSize) :
    formatLoop L tbl mem ptr (c :: rest) (some fs) st =
      formatLoop L tbl mem ptr rest none
        { src := alignDouble st.src + 8, dst := st.dst + text.length,
          buffer := st.buffer ++ text.take (BufferSize - st.dst - 1),
          reads := st.reads ++ [(ptr + alignDouble st.src, 8)] } ∧
    alignDouble st.src % 8 = 0 ∧ st.src ≤ alignDouble st.src ∧ alignDouble st.src < st.src + 8 ∧
    (st.src % 8 = 0 → alignDouble st.src = st.src) := by
  have hlt : ¬ BufferSize < st.dst := by omega
  refine ⟨?_, alignDouble_spec st.src⟩
  rcases hc with rfl | rfl | rfl <;>
    simp [formatLoop, putFormatted, htext, hlt]

/-- C22 (witness): `%f` at the argument offset 20, which is aligned to 24, where the
double 3.5 is stored. -/
theorem double_conversion_witness :
    stdc.snprintfDouble (['%'] ++ ['f'])
        (readU64 (ofBytes argBytes) (0 + alignDouble ({ Locals.fresh with src := 20 } : Locals).src))
      = some "3.500000".toList ∧
    formatLoop stdc tableA (ofBytes argBytes) 0 ('f' :: ['!']) (some ['%'])
        { Locals.fresh with src := 20 } =
      formatLoop stdc tableA (ofBytes argBytes) 0 ['!'] none
        { src := 24 + 8, dst := 8, buffer := "3.500000".toList, reads := [(24, 8)] } :=
  ⟨by decide,
   (double_conversion stdc tableA (ofBytes argBytes) 0 'f' ['!'] ['%']
     { Locals.fresh with src := 20 } "3.500000".toList (Or.inl rfl) (by decide) (by decide)).1⟩

/-- C23: in the format loop, for the conversion `s`, `processPrintfBuffer` rounds the
argument offset up to a multiple of 8 and loads the 8 bytes there as a hash; when the
hash is registered it hands the registered text to `snprintf` (which, for the plain
specification `%s`, yields that text), appends the result to the line and goes on
with the offset 8 past the aligned position; when the hash is not registered,
decoding stops with the fatal `unknownHash`. -/
theorem string_conversion (L : Libc) (tbl : HashMap) (mem : Memory) (ptr : Nat)
    (rest fs : List Char) (st : Locals) :
    (∀ str text, tbl (readU64 mem (ptr + alignDouble st.src)) = some str →
      L.snprintfStr (fs ++ ['s']) str = some text → st.dst ≤ BufferSize →
      formatLoop L tbl mem ptr ('s' :: rest) (some fs) st =
        formatLoop L tbl mem ptr rest none
          { src := alignDouble st.src + 8, dst := st.dst + text.length,
            buffer := st.buffer ++ text.take (BufferSize - st.dst - 1),
            reads := st.reads ++ [(ptr + alignDouble st.src, 8)] }) ∧
    (tbl (readU64 mem (ptr + alignDouble st.src)) = none →
      formatLoop L tbl mem ptr ('s' :: rest) (some fs) st
        = .error (.unknownHash (readU64 mem (ptr + alignDouble st.src)))) ∧
    (∀ str, stdc.snprintfStr (['%'] ++ ['s']) str = some str) ∧
    alignDouble st.src % 8 = 0 ∧ st.src ≤ alignDouble st.src ∧
    alignDouble st.src < st.src + 8 := by
  have ha := alignDouble_spec st.src
  refine ⟨?_, ?_, ?_, ha.1, ha.2.1, ha.2.2.1⟩
  · intro str text hreg htext hdst
    have hlt : ¬ BufferSize < st.dst := by omega
    simp [formatLoop, resolve, hreg, putFormatted, htext, hlt]
  · intro hnone
    simp [formatLoop, resolve, hnone]
  · intro str
    simp [stdc]

/-- C23 (witness): `%s` at the argument offset 32, where the hash 7 of `"a"` is stored,
and at the offset 16, where a hash is stored that `tableA` does not register. -/
theorem string_conversion_witness :
    formatLoop stdc tableA (ofBytes argBytes) 0 ('s' :: ['!']) (some ['%'])
        { Locals.fresh with src := 32 } =
      formatLoop stdc tableA (ofBytes argBytes) 0 ['!'] none
        { src := 32 + 8, dst := 1, buffer := ['a'], reads := [(32, 8)] } ∧
    formatLoop stdc tableA (ofBytes argBytes) 0 ('s' :: ['!']) (some ['%']) Locals.fresh
      = .error (.unknownHash (2 ^ 32 - 2)) :=
  ⟨(string_conversion stdc tableA (ofBytes argBytes) 0 ['!'] ['%']
      { Locals.fresh with src := 32 }).1 ['a'] ['a'] (by decide) (by decide) (by decide),
   (string_conversion stdc tableA (ofBytes argBytes) 0 ['!'] ['%'] Locals.fresh).2.1
      (by decide)⟩

theorem formatLoop_literals (L : Libc) (tbl : HashMap) (mem : Memory) (ptr : Nat)
    (format : List Char) :
    ∀ st : Locals, (∀ c ∈ format, c ≠ '%') → st.dst + format.length ≤ BufferSize →
      formatLoop L tbl mem ptr format none st
        = .ok { st with buffer := st.buffer ++ format, dst := st.dst + format.length } := by
  induction format with
  | nil => intro st _ _; simp [formatLoop]
  | cons c rest ih =>
    intro st hne hlen
    have hc : c ≠ '%' := hne c (by simp)
    have hd : st.dst < BufferSize := by simp at hlen; omega
    simp only [formatLoop, hc, ↓reduceIte, putChar, hd]
    rw [ih _ (fun x hx => hne x (by simp [hx])) (by simp at hlen ⊢; omega)]
    simp [Nat.add_assoc, Nat.add_comm 1]

/-- C24: in the format loop, `%%` (for which `snprintf` yields the text `%`) appends
exactly one `%` to the line and leaves the argument offset `src` as it is; a
character other than `%` outside a conversion is appended to the line unchanged, and
a run of such characters is appended unchanged and in order. -/
theorem percent_and_literals (L : Libc) (tbl : HashMap) (mem : Memory) (ptr : Nat)
    (rest : List Char) (st : Locals) :
    (L.snprintfNone ['%', '%'] = some ['%'] → st.dst + 1 < BufferSize →
      formatLoop L tbl mem ptr ('%' :: '%' :: rest) none st =
        formatLoop L tbl mem ptr rest none
          { st with buffer := st.buffer ++ ['%'], dst := st.dst + 1 }) ∧
    stdc.snprintfNone ['%', '%'] = some ['%'] ∧
    (∀ c, c ≠ '%' → st.dst < BufferSize →
      formatLoop L tbl mem ptr (c :: rest) none st =
        formatLoop L tbl mem ptr rest none
          { st with buffer := st.buffer ++ [c], dst := st.dst + 1 }) ∧
    (∀ literals : List Char, (∀ c ∈ literals, c ≠ '%') →
      st.dst + literals.length ≤ BufferSize →
      formatLoop L tbl mem ptr literals none st
        = .ok { st with buffer := st.buffer ++ literals, dst := st.dst + literals.length }) := by
  refine ⟨?_, rfl, ?_, ?_⟩
  · intro hpct hdst
    have hlt : ¬ BufferSize < st.dst := by omega
    have htake : List.take (BufferSize - st.dst - 1) ['%'] = ['%'] := by
      have : BufferSize - st.dst - 1 = (BufferSize - st.dst - 2) + 1 := by omega
      rw [this, List.take_succ_cons, List.take_nil]
    simp [formatLoop, putFormatted, hpct, hlt, htake]
  · intro c hc hdst
    simp [formatLoop, hc, putChar, hdst]
  · intro literals hne hlen
    exact formatLoop_literals L tbl mem ptr literals st hne hlen

/-- C24 (witness): the format `"a%%b"` gives the line `"a%b"` and leaves `src` at 16. -/
theorem percent_and_literals_witness :
    formatLoop stdc tableA (ofBytes argBytes) 0 ['a', '%', '%', 'b'] none Locals.fresh
      = .ok { src := 16, dst := 3, buffer := ['a', '%', 'b'], reads := [] } ∧
    (formatLoop stdc tableA (ofBytes argBytes) 0 ('%' :: '%' :: ['b']) none
        { Locals.fresh with buffer := ['a'], dst := 1 } =
      formatLoop stdc tableA (ofBytes argBytes) 0 ['b'] none
        { ({ Locals.fresh with buffer := ['a'], dst := 1 } : Locals) with
          buffer := ({ Locals.fresh with buffer := ['a'], dst := 1 } : Locals).buffer ++ ['%'],
          dst := ({ Locals.fresh with buffer := ['a'], dst := 1 } : Locals).dst + 1 }) :=
  ⟨rfl,
   (percent_and_literals stdc tableA (ofBytes argBytes) 0 ['b']
      { Locals.fresh with buffer := ['a'], dst := 1 }).1 rfl (by decide)⟩

/-! ## The line buffer -/

/-- C29 (failing input): for the registered format string of 4096 characters `a` and the
record `{7, args_size = 0}`, the format loop stores the characters at the indices 0 to
4095 of `buffer` and ends with `dst = 4096`; the terminating NUL is then stored at
`buffer[4096]`, outside `char buffer[4096]`, which the embedding reports as the
fault `lineOverflow`. -/
theorem nul_past_line_buffer :
    longTable (readU64 (ofBytes tightBytes) 0) = some longFormat ∧ longFormat.length = 4096 ∧
    formatRecord stdc longTable (ofBytes tightBytes) 0 longFormat
      = .ok { src := 16, dst := 4096, buffer := longFormat, reads := [] } ∧
    (processPrintfBuffer stdc longTable (ofBytes tightBytes) 24 1).2
      = Exit.fault .lineOverflow := by
  have hlen : longFormat.length = 4096 := by rw [longFormat, List.length_replicate]
  have hfmt : formatRecord stdc longTable (ofBytes tightBytes) 0 longFormat
      = .ok { src := 16, dst := 4096, buffer := longFormat, reads := [] } := by
    have h := formatLoop_literals stdc longTable (ofBytes tightBytes) 0 longFormat
      { src := 16, dst := 0, buffer := [], reads := [] }
      (by
        intro c hc
        have := List.eq_of_mem_replicate hc
        rw [this]; decide)
      (by rw [hlen]; decide)
    rw [formatRecord, h, hlen]
    rfl
  have hreg : longTable (readU64 (ofBytes tightBytes) 0) = some longFormat := by
    have : readU64 (ofBytes tightBytes) 0 = 7 := by decide
    rw [this]; rfl
  refine ⟨hreg, hlen, hfmt, ?_⟩
  have h0 : readU64 (ofBytes tightBytes) Decoder.start.ptr ≠ 0 := by decide
  rw [processPrintfBuffer, processLoop_succ _ _ _ _ _ _ (by decide)]
  simp only [decodeRecord, h0, ↓reduceIte, resolve]
  have hreg2 : longTable (readU64 (ofBytes tightBytes) Decoder.start.ptr) = some longFormat :=
    hreg
  simp only [hreg2]
  have hfmt2 : formatRecord stdc longTable (ofBytes tightBytes) Decoder.start.ptr longFormat
      = .ok { src := 16, dst := 4096, buffer := longFormat, reads := [] } := hfmt
  simp only [hfmt2]
  rw [if_neg (by decide)]

/-! ## The host pixel buffer -/

theorem intResult_some (n : Nat) (h : n < 2 ^ 31) : intResult n = some n := by
  rw [intResult, if_pos h]

theorem intResult_none (n : Nat) (h : ¬ n < 2 ^ 31) : intResult n = none := by
  rw [intResult, if_neg h]

theorem pixelFloats_some (image : ImageBuf) (h : image.width * image.height * 4 < 2 ^ 31) :
    pixelFloats image = some (image.width * image.height * 4) := by
  rw [pixelFloats, intResult_some _ (by omega), Option.some_bind, intResult_some _ h]

theorem pixelFloats_none (image : ImageBuf) (h : ¬ image.width * image.height * 4 < 2 ^ 31) :
    pixelFloats image = none := by
  rw [pixelFloats]
  by_cases h1 : image.width * image.height < 2 ^ 31
  · rw [intResult_some _ h1, Option.some_bind, intResult_none _ h]
  · rw [intResult_none _ h1, Option.none_bind]

theorem pixelIndex_some (width i j : Nat) (h : (j * width + i) * 4 < 2 ^ 31) :
    pixelIndex width i j = some ((j * width + i) * 4 + 0) := by
  rw [pixelIndex, intResult_some _ (by omega), Option.some_bind,
    intResult_some _ (by omega), Option.some_bind, intResult_some _ h, Option.some_bind,
    intResult_some _ (by omega)]

theorem foldlM_option_invariant {α β : Type} (P : β → Prop) (f : β → α → Option β)
    (hstep : ∀ b a b', P b → f b a = some b' → P b') :
    ∀ (l : List α) (b b' : β), P b → l.foldlM f b = some b' → P b' := by
  intro l
  induction l with
  | nil =>
    intro b b' hb h
    simp at h
    exact h ▸ hb
  | cons a l ih =>
    intro b b' hb h
    rw [List.foldlM_cons] at h
    cases hfa : f b a with
    | none => rw [hfa] at h; simp at h
    | some b1 =>
      rw [hfa] at h
      exact ih b1 b' (hstep b a b1 hb hfa) h

theorem getpixel_length (image : ImageBuf) (i j base : Nat) (pixels px : List Nat)
    (h : getpixel image i j pixels base = some px) : px.length = pixels.length := by
  unfold getpixel at h
  refine foldlM_option_invariant (fun p : List Nat => p.length = pixels.length) _ ?_ _ _ _ rfl h
  intro b a b' hb hf
  by_cases hlt : base + a < b.length
  · simp only [hlt, ↓reduceIte, Option.some.injEq] at hf
    rw [← hf, List.length_set, hb]
  · simp [hlt] at hf

theorem row_length (image : ImageBuf) (j n : Nat) (pixels px : List Nat)
    (h : (List.range n).foldlM
      (fun px1 i => (pixelIndex image.width i j).bind fun base =>
        getpixel image i j px1 base) pixels = some px) :
    px.length = pixels.length := by
  refine foldlM_option_invariant (fun p : List Nat => p.length = pixels.length) _ ?_ _ _ _ rfl h
  intro b a b' hb hf
  cases hidx : pixelIndex image.width a j with
  | none => rw [hidx] at hf; simp at hf
  | some base =>
    rw [hidx, Option.some_bind] at hf
    exact (getpixel_length image a j base b b' hf).trans hb

theorem getpixel_overrun (image : ImageBuf) (i j base : Nat) (pixels : List Nat)
    (hc : 4 < image.nchannels) (hb : pixels.length ≤ base + 4) :
    getpixel image i j pixels base = none := by
  cases h : getpixel image i j pixels base with
  | none => rfl
  | some px =>
    exfalso
    unfold getpixel at h
    have hmin : min image.nchannels maxchannels = (min image.nchannels maxchannels - 1) + 1 := by
      simp only [maxchannels]; omega
    have hge : 4 ≤ min image.nchannels maxchannels - 1 := by
      simp only [maxchannels]; omega
    rw [hmin, List.range_succ, List.foldlM_append] at h
    cases h1 : (List.range (min image.nchannels maxchannels - 1)).foldlM
        (fun px k => if base + k < px.length then some (px.set (base + k) (image.channel i j k))
                 else none) pixels with
    | none => rw [h1] at h; simp at h
    | some px1 =>
      rw [h1] at h
      have hlen : px1.length = pixels.length := by
        refine foldlM_option_invariant (fun p : List Nat => p.length = pixels.length) _ ?_ _ _ _
          rfl h1
        intro b a b' hb1 hf
        by_cases hlt : base + a < b.length
        · simp only [hlt, ↓reduceIte, Option.some.injEq] at hf
          rw [← hf, List.length_set, hb1]
        · simp [hlt] at hf
      have hnot : ¬ base + (min image.nchannels maxchannels - 1) < px1.length := by omega
      simp [hnot] at h

theorem fillPixels_overrun (image : ImageBuf) (hw : 0 < image.width) (hh : 0 < image.height)
    (hc : 4 < image.nchannels) : fillPixels image = none := by
  by_cases hsize : image.width * image.height * 4 < 2 ^ 31
  · cases h : fillPixels image with
    | none => rfl
    | some px =>
      exfalso
      rw [fillPixels, pixelFloats_some image hsize, Option.some_bind] at h
      have hH : image.height = (image.height - 1) + 1 := by omega
      have hW : image.width = (image.width - 1) + 1 := by omega
      rw [hH, List.range_succ, List.foldlM_append] at h
      rw [← hH] at h
      cases h1 : (List.range (image.height - 1)).foldlM
          (fun px j => (List.range image.width).foldlM
            (fun px1 i => (pixelIndex image.width i j).bind fun base =>
              getpixel image i j px1 base) px)
          (List.replicate (image.width * image.height * 4) 0) with
      | none => rw [h1] at h; simp at h
      | some px1 =>
        rw [h1] at h
        have hlen1 : px1.length = image.width * image.height * 4 := by
          have := foldlM_option_invariant
            (fun p : List Nat => p.length = image.width * image.height * 4) _
            (fun b a b' hb hf => (row_length image a _ b b' hf).trans hb) _ _ _
            (by simp) h1
          exact this
        simp only [Option.some_bind, List.foldlM_cons, List.foldlM_nil, Option.pure_def,
          Option.bind_eq_bind, Option.bind_some] at h
        rw [hW, List.range_succ, List.foldlM_append] at h
        rw [← hW] at h
        cases h2 : (List.range (image.width - 1)).foldlM
            (fun px1 i => (pixelIndex image.width i (image.height - 1)).bind fun base =>
              getpixel image i (image.height - 1) px1 base) px1 with
        | none => rw [h2] at h; simp at h
        | some px2 =>
          rw [h2] at h
          have hlen2 : px2.length = px1.length := row_length image _ _ px1 px2 h2
          have hsz : image.width * image.height
              = (image.height - 1) * image.width + (image.width - 1) + 1 := by
            have e : image.width * image.height = (image.height - 1 + 1) * image.width := by
              rw [← hH, Nat.mul_comm]
            rw [e, Nat.add_mul]
            omega
          have hidx := pixelIndex_some image.width (image.width - 1) (image.height - 1)
            (by rw [hsz] at hsize; omega)
          have hover := getpixel_overrun image (image.width - 1) (image.height - 1)
            ((((image.height - 1) * image.width) + (image.width - 1)) * 4 + 0) px2 hc
            (by rw [hlen2, hlen1, hsz]; omega)
          simp only [Nat.add_zero] at hidx hover
          simp [hidx, hover] at h
  · rw [fillPixels, pixelFloats_none image hsize, Option.none_bind]

/-- C30 (failing input): for the one pixel image with five channels the host buffer has
`1 * 1 * 4 = 4` floats, and `image.getpixel(0, 0, 0, &pixels[0])` stores all five
channel values (the default `maxchannels` is 1000), the fifth one at `pixels[4]`,
outside the buffer; `get_texture_handle` ends in this store. The same happens for
every image with at least one pixel and more than four channels, at its last pixel
if not before (for a size outside the range of `int`, where the buffer is sized). -/
theorem five_channels_overrun :
    fivePixel.width * fivePixel.height * 4 = 4 ∧
    min fivePixel.nchannels maxchannels = 5 ∧
    getpixel fivePixel 0 0 (List.replicate 4 0) 0 = none ∧
    fillPixels fivePixel = none ∧
    get_texture_handle fiveWorld Renderer.fresh pixelPath = .undefinedStore ∧
    (∀ image : ImageBuf, 0 < image.width → 0 < image.height → 4 < image.nchannels →
      fillPixels image = none ∧
      ∀ (w : World) (r : Renderer) (filename : List Char), r.m_samplers filename = none →
        w.init_spec filename = some image →
        get_texture_handle w r filename = .undefinedStore) := by
  refine ⟨by decide, by decide, by decide, by decide, rfl, ?_⟩
  intro image hw hh hc
  have hfill := fillPixels_overrun image hw hh hc
  refine ⟨hfill, ?_⟩
  intro w r filename hmiss himg
  simp only [get_texture_handle, hmiss, himg, hfill]

end OptixGridRenderer
